import Mathlib

/-!
# socialbudget: roster normalizer and budget aggregator

A shallow embedding of the pure parts of `backend/storage.go` and
`backend/server.go`.

Modelling conventions.
* Go strings are modelled by `String`.  Go compares strings bytewise on their
  UTF-8 encoding, which orders strings exactly as the code points do.
* A Go `map[string]V` that is only read by key is modelled by a total lookup
  function returning the zero value on absent keys; a map whose keys are
  iterated is modelled by `GoMap`, which also records the key set.
* `float64` is modelled by `Float64`: IEEE 754 binary64 with round to nearest,
  ties to even, infinities and NaN.  The budget functions on it carry the
  suffix `64` (`roundCurrency64`, `buildExpenseResponse64`,
  `buildTeamBudgets64`, `buildDepartmentBudgets64`), and every statement about
  a rounded or summed amount is made on them.
* The same functions without suffix compute with exact rationals.  They serve
  the statements about team names, departments, headcounts, the order of rows
  and the allocation `60 x headcount x quarter`, none of which depends on
  rounding error.
-/

namespace SocialBudget

/-! ## Data model (`models.go`, `storage.go`) -/

/-- The `employeeRaw` record of `storage.go`. -/
structure employeeRaw where
  ID : String
  Name : String
  Team : String
  Manager : String
  Department : String
  deriving DecidableEq, Repr

/-- The `Employee` record of `models.go`. -/
structure Employee where
  ID : String
  Name : String
  Team : String
  Department : String
  deriving DecidableEq, Repr

/-! ## String helpers of the Go standard library -/

/-- Go's `unicode.IsSpace`: the Latin-1 spaces and the code points with the
White_Space property. -/
def isSpace (c : Char) : Bool :=
  let n := c.toNat
  (9 ≤ n && n ≤ 13) || n = 32 || n = 0x85 || n = 0xA0 || n = 0x1680 ||
  (0x2000 ≤ n && n ≤ 0x200A) || n = 0x2028 || n = 0x2029 || n = 0x202F ||
  n = 0x205F || n = 0x3000

/-- Go's `strings.TrimSpace`. -/
def trimSpace (s : String) : String :=
  ⟨(s.data.dropWhile isSpace).rdropWhile isSpace⟩

/-- Go's `unicode.ToLower` on the runes that matter to `slugify`: the ASCII
capitals, and the only two non-ASCII runes whose lower case is ASCII
(U+0130 to `i`, U+212A to `k`).  Every other rune is left as it is; its true
lower case is outside `[a-z0-9-]` exactly when the rune itself is, so the
regular expression of `slugify` strips it either way. -/
def toLower (c : Char) : Char :=
  let n := c.toNat
  if 65 ≤ n ∧ n ≤ 90 then Char.ofNat (n + 32)
  else if n = 0x130 then 'i'
  else if n = 0x212A then 'k'
  else c

/-- Membership in the character class `[a-z0-9-]`. -/
def isSlugChar (c : Char) : Bool :=
  let n := c.toNat
  (97 ≤ n && n ≤ 122) || (48 ≤ n && n ≤ 57) || n = 45

/-- The function `slugify` of `storage.go`. -/
def slugify (value : String) : String :=
  let v1 := (trimSpace value).data.map toLower
  let v2 := v1.map (fun c => if c = '_' then '-' else c)
  let v3 := v2.map (fun c => if c = ' ' then '-' else c)
  let v4 := v3.filter isSlugChar
  let v5 := (v4.dropWhile (fun c => c = '-')).rdropWhile (fun c => c = '-')
  if v5 = [] then "employee" else ⟨v5⟩

/-! ## Roster normalizer (`Storage.LoadEmployees`, lines 71-106) -/

/-- The team resolved at lines 75-81. -/
def resolveTeam (raw : employeeRaw) : String :=
  let team := trimSpace raw.Team
  let team := if team = "" then trimSpace raw.Manager else team
  if team = "" then "Unassigned" else team

/-- The department resolved at lines 83-86. -/
def resolveDepartment (raw : employeeRaw) : String :=
  let department := trimSpace raw.Department
  if department = "" then resolveTeam raw else department

/-- The id before disambiguation, lines 88-91. -/
def resolveID (raw : employeeRaw) : String :=
  let employeeID := trimSpace raw.ID
  if employeeID = "" then slugify (raw.Name ++ "-" ++ resolveTeam raw) else employeeID

/-- The loop body and loop of `LoadEmployees`, with the `idCounts` map passed
explicitly. -/
def loadLoop : List employeeRaw → (String → Nat) → List Employee
  | [], _ => []
  | raw :: rest, idCounts =>
    let team := resolveTeam raw
    let department := resolveDepartment raw
    let employeeID := resolveID raw
    let count := idCounts employeeID + 1
    let idCounts := fun k => if k = employeeID then count else idCounts k
    let employeeID :=
      if count > 1 then employeeID ++ "-" ++ toString count else employeeID
    { ID := employeeID, Name := trimSpace raw.Name, Team := team,
      Department := department } :: loadLoop rest idCounts

/-- The roster normalizer: `LoadEmployees` on already decoded raw records. -/
def LoadEmployees (rawEmployees : List employeeRaw) : List Employee :=
  loadLoop rawEmployees (fun _ => 0)

/-- A raw record carrying only an id. -/
def rawOfID (id : String) : employeeRaw :=
  { ID := id, Name := "", Team := "", Manager := "", Department := "" }

/-- An employee fed back as a raw record: same id, name, team and department,
no manager. -/
def toRaw (e : Employee) : employeeRaw :=
  { ID := e.ID, Name := e.Name, Team := e.Team, Manager := "",
    Department := e.Department }

/-! ## Expenses and budgets (`models.go`) -/

/-- The `Expense` record of `models.go`. -/
structure Expense where
  ID : String
  Date : String
  Description : String
  Amount : ℚ
  Attendees : List String
  ReceiptURL : String
  deriving DecidableEq

/-- The `ExpenseResponse` record of `models.go`. -/
structure ExpenseResponse where
  ID : String
  Date : String
  Description : String
  Amount : ℚ
  CostPerPerson : ℚ
  Attendees : List Employee
  ReceiptURL : String
  deriving DecidableEq

/-- The `BudgetTeam` record of `models.go`. -/
structure BudgetTeam where
  Team : String
  Department : String
  Headcount : Nat
  Allocated : ℚ
  Spent : ℚ
  Remaining : ℚ
  deriving DecidableEq

/-- The constant `quarterBudgetPerPerson` of `server.go`. -/
def quarterBudgetPerPerson : ℚ := 60

/-! ## Rounding and dates -/

/-- Go's `math.Round`: the nearest integer, halves away from zero. -/
def mathRound (x : ℚ) : ℤ :=
  if 0 ≤ x then ⌊x + 1 / 2⌋ else -⌊-x + 1 / 2⌋

/-- The function `roundCurrency` of `server.go`: `math.Round(value*100) / 100`. -/
def roundCurrency (value : ℚ) : ℚ :=
  (mathRound (value * 100) : ℚ) / 100

/-- The calendar fields of a `time.Time` produced by `time.Parse`. -/
structure Date where
  year : Nat
  month : Nat
  day : Nat
  deriving DecidableEq, Repr

/-- Value of a decimal digit, as in Go's `isDigit` and `getnum`. -/
def digit? (c : Char) : Option Nat :=
  if 48 ≤ c.toNat ∧ c.toNat ≤ 57 then some (c.toNat - 48) else none

/-- Go's `isLeap` of package `time`. -/
def isLeap (year : Nat) : Bool :=
  year % 4 = 0 && (year % 100 ≠ 0 || year % 400 = 0)

/-- Go's `daysIn` of package `time`. -/
def daysIn (month year : Nat) : Nat :=
  if month = 2 then (if isLeap year then 29 else 28)
  else if month = 4 ∨ month = 6 ∨ month = 9 ∨ month = 11 then 30
  else 31

/-- Go's `time.Parse(dateLayout, s)` for `dateLayout = "2006-01-02"`: four
year digits, two month digits and two day digits separated by hyphens,
nothing else, month in 1..12 and the day valid in that month. -/
def parseDate (s : String) : Option Date :=
  match s.data with
  | [y1, y2, y3, y4, s1, m1, m2, s2, d1, d2] =>
    match digit? y1, digit? y2, digit? y3, digit? y4,
          digit? m1, digit? m2, digit? d1, digit? d2 with
    | some a, some b, some c, some d, some e, some f, some g, some h =>
      let year := a * 1000 + b * 100 + c * 10 + d
      let month := e * 10 + f
      let day := g * 10 + h
      if s1 = '-' ∧ s2 = '-' ∧ 1 ≤ month ∧ month ≤ 12 ∧
          1 ≤ day ∧ day ≤ daysIn month year
      then some { year := year, month := month, day := day }
      else none
    | _, _, _, _, _, _, _, _ => none
  | _ => none

/-- The function `quarterFromDate` of `server.go`. -/
def quarterFromDate (date : Date) : Nat :=
  (date.month - 1) / 3 + 1

/-! ## Expense enrichment (`buildExpenseResponse`, `mapEmployeesByID`) -/

/-- The function `mapEmployeesByID` of `server.go`: the last employee with a
given id wins. -/
def mapEmployeesByID (employees : List Employee) : String → Option Employee :=
  employees.foldl (fun employeeMap employee =>
    fun k => if k = employee.ID then some employee else employeeMap k) (fun _ => none)

/-- The attendee resolved at lines 267-275 of `buildExpenseResponse`. -/
def resolveAttendee (employeeMap : String → Option Employee) (attendeeID : String) :
    Employee :=
  match employeeMap attendeeID with
  | some employee => employee
  | none => { ID := attendeeID, Name := "Unknown", Team := "Unassigned",
              Department := "Unassigned" }

/-- The function `buildExpenseResponse` of `server.go`; `none` is `ok = false`. -/
def buildExpenseResponse (expense : Expense) (employeeMap : String → Option Employee) :
    Option ExpenseResponse :=
  if expense.Attendees.length = 0 then none
  else some
    { ID := expense.ID
      Date := expense.Date
      Description := expense.Description
      Amount := expense.Amount
      CostPerPerson := roundCurrency (expense.Amount / (expense.Attendees.length : ℚ))
      Attendees := expense.Attendees.map (resolveAttendee employeeMap)
      ReceiptURL := expense.ReceiptURL }

/-! ## Team budgets (`buildTeamBudgets`) -/

/-- A Go map whose keys are iterated: the key set and the lookup, which
returns the zero value on absent keys. -/
structure GoMap (V : Type) where
  keys : List String
  val : String → V

/-- The empty map, with `zero` the zero value of `V`. -/
def GoMap.empty {V : Type} (zero : V) : GoMap V :=
  { keys := [], val := fun _ => zero }

/-- The assignment `m[k] = v`. -/
def GoMap.set {V : Type} (m : GoMap V) (k : String) (v : V) : GoMap V :=
  { keys := if k ∈ m.keys then m.keys else m.keys ++ [k]
    val := fun x => if x = k then v else m.val x }

/-- The three maps of `buildTeamBudgets`. -/
structure TeamMaps where
  teamHeadcount : GoMap Nat
  teamDepartments : String → String
  teamSpent : GoMap ℚ

/-- The body of the roster loop, lines 307-310. -/
def rosterStep (st : TeamMaps) (employee : Employee) : TeamMaps :=
  { st with
    teamHeadcount :=
      st.teamHeadcount.set employee.Team (st.teamHeadcount.val employee.Team + 1)
    teamDepartments :=
      fun x => if x = employee.Team then employee.Department else st.teamDepartments x }

/-- The body of the attendee loop, lines 330-341. -/
def attendeeStep (employeeMap : String → Option Employee) (costPerPerson : ℚ)
    (st : TeamMaps) (attendeeID : String) : TeamMaps :=
  match employeeMap attendeeID with
  | none =>
    { st with
      teamSpent := st.teamSpent.set "Unassigned" (st.teamSpent.val "Unassigned" + costPerPerson)
      teamDepartments := fun x => if x = "Unassigned" then "Unassigned" else st.teamDepartments x }
  | some employee =>
    { st with
      teamSpent := st.teamSpent.set employee.Team (st.teamSpent.val employee.Team + costPerPerson)
      teamDepartments :=
        if st.teamDepartments employee.Team = "" then
          fun x => if x = employee.Team then employee.Department else st.teamDepartments x
        else st.teamDepartments }

/-- The body of the expense loop, lines 314-342. -/
def expenseStep (employeeMap : String → Option Employee) (year quarter : Int)
    (st : TeamMaps) (expense : Expense) : TeamMaps :=
  match parseDate expense.Date with
  | none => st
  | some expenseDate =>
    if (expenseDate.year : Int) ≠ year then st
    else if (quarterFromDate expenseDate : Int) > quarter then st
    else if expense.Attendees.length = 0 then st
    else
      let costPerPerson := expense.Amount / (expense.Attendees.length : ℚ)
      expense.Attendees.foldl (attendeeStep employeeMap costPerPerson) st

/-- The maps of `buildTeamBudgets` after both loops, lines 304-342. -/
def teamMaps (employees : List Employee) (expenses : List Expense)
    (employeeMap : String → Option Employee) (year quarter : Int) : TeamMaps :=
  expenses.foldl (expenseStep employeeMap year quarter)
    (employees.foldl rosterStep
      { teamHeadcount := GoMap.empty 0, teamDepartments := fun _ => "",
        teamSpent := GoMap.empty 0 })

/-- The key set `seenTeams`, lines 345-352. -/
def seenTeams (st : TeamMaps) : List String :=
  st.teamHeadcount.keys ++ st.teamSpent.keys.filter (fun t => t ∉ st.teamHeadcount.keys)

/-- The row built for one team, lines 355-365. -/
def teamRow (st : TeamMaps) (quarter : Int) (team : String) : BudgetTeam :=
  let headcount := st.teamHeadcount.val team
  let allocated := quarterBudgetPerPerson * (headcount : ℚ) * (quarter : ℚ)
  let spent := st.teamSpent.val team
  { Team := team
    Department := st.teamDepartments team
    Headcount := headcount
    Allocated := roundCurrency allocated
    Spent := roundCurrency spent
    Remaining := roundCurrency (allocated - spent) }

/-- The comparator handed to `sort.Slice` at lines 368-373. -/
def teamLess (a b : BudgetTeam) : Bool :=
  if a.Department = b.Department then a.Team < b.Team
  else a.Department < b.Department

/-- The function `buildTeamBudgets` of `server.go`.  The rows carry pairwise
distinct teams, so the comparator orders them totally and every sorting
algorithm returns the same list; `sort.Slice` is modelled by insertion sort. -/
def buildTeamBudgets (employees : List Employee) (expenses : List Expense)
    (employeeMap : String → Option Employee) (year quarter : Int) : List BudgetTeam :=
  let st := teamMaps employees expenses employeeMap year quarter
  ((seenTeams st).map (teamRow st quarter)).insertionSort
    (fun a b => teamLess b a = false)

/-! ### The spend of a team, as the specification words it -/

/-- The team an attendee id counts under: the team of the lookup's employee,
"Unassigned" for an id absent from the lookup. -/
def specAttendeeTeam (employeeMap : String → Option Employee) (attendeeID : String) :
    String :=
  match employeeMap attendeeID with
  | some employee => employee.Team
  | none => "Unassigned"

/-- The cumulative window: the date parses, its year is the selected year, its
quarter is at most the selected quarter, and the attendee list is not empty. -/
def specInWindow (year quarter : Int) (expense : Expense) : Bool :=
  match parseDate expense.Date with
  | some date =>
    decide ((date.year : Int) = year) && decide ((quarterFromDate date : Int) ≤ quarter)
      && !expense.Attendees.isEmpty
  | none => false

/-- The share of one expense that falls on a team: `amount / attendeeCount`
for each attendee counted under that team. -/
def specExpenseShare (employeeMap : String → Option Employee) (team : String)
    (expense : Expense) : ℚ :=
  ((expense.Attendees.filter (fun a => specAttendeeTeam employeeMap a = team)).map
    (fun _ => expense.Amount / (expense.Attendees.length : ℚ))).sum

/-- The unrounded spend of a team: the sum of its shares over the expenses in
the cumulative window. -/
def specTeamSpent (employeeMap : String → Option Employee) (expenses : List Expense)
    (year quarter : Int) (team : String) : ℚ :=
  ((expenses.filter (specInWindow year quarter)).map
    (specExpenseShare employeeMap team)).sum

/-! ## Listing the expenses of a quarter (`Server.handleExpenses`) -/

/-- The body of the filter loop of `handleExpenses`, lines 81-94. -/
def filterStep (employeeMap : String → Option Employee) (year quarter : Int)
    (filtered : List ExpenseResponse) (expense : Expense) : List ExpenseResponse :=
  match parseDate expense.Date with
  | none => filtered
  | some expenseDate =>
    if (expenseDate.year : Int) ≠ year ∨ (quarterFromDate expenseDate : Int) ≠ quarter then
      filtered
    else
      match buildExpenseResponse expense employeeMap with
      | some response => filtered ++ [response]
      | none => filtered

/-- The expense list computed by `handleExpenses`, lines 80-98, on the loaded
expenses, the employee lookup and the parsed year and quarter.  `sort.Slice`
is not stable, so the code does not fix the order among views of equal date;
insertion sort returns one of the orders it may produce. -/
def handleExpenses (expenses : List Expense) (employeeMap : String → Option Employee)
    (year quarter : Int) : List ExpenseResponse :=
  (expenses.foldl (filterStep employeeMap year quarter) []).insertionSort
    (fun a b => ¬ b.Date > a.Date)

/-- The exact window of a listing: the date parses, its year is the selected
year, its quarter is the selected quarter, and the attendee list is not empty. -/
def specInQuarter (year quarter : Int) (expense : Expense) : Bool :=
  match parseDate expense.Date with
  | some date =>
    decide ((date.year : Int) = year) && decide ((quarterFromDate date : Int) = quarter)
      && !expense.Attendees.isEmpty
  | none => false

/-- Whether some expense in the cumulative window has an attendee id absent
from the lookup. -/
def specHasUnknown (employeeMap : String → Option Employee) (year quarter : Int)
    (expenses : List Expense) : Bool :=
  expenses.any (fun x => specInWindow year quarter x &&
    x.Attendees.any (fun a => (employeeMap a).isNone))

/-- What remains of a value in `slugify` after lowercasing, mapping spaces and
underscores to hyphens, stripping the characters outside `[a-z0-9-]` and
trimming hyphens (lines 143-148). -/
def specSlugRemainder (value : String) : List Char :=
  (((((((trimSpace value).data.map toLower).map (fun c => if c = '_' then '-' else c)).map
    (fun c => if c = ' ' then '-' else c)).filter isSlugChar).dropWhile
      (fun c => c = '-')).rdropWhile (fun c => c = '-'))

/-! ## Query parameters (`parseYearQuarter`) -/

/-- The value of a non-empty string of decimal digits. -/
def digitsValue? (cs : List Char) : Option Nat :=
  if cs = [] then none
  else cs.foldl (fun acc c =>
    match acc, digit? c with
    | some n, some d => some (n * 10 + d)
    | _, _ => none) (some 0)

/-- The value of a decimal integer: an optional sign followed by at least one
decimal digit.  This is the syntax accepted by Go's `strconv.Atoi`. -/
def decimalValue? (s : String) : Option Int :=
  match s.data with
  | '-' :: rest => (digitsValue? rest).map (fun n => -(n : Int))
  | '+' :: rest => (digitsValue? rest).map (fun n => (n : Int))
  | cs => (digitsValue? cs).map (fun n => (n : Int))

/-- Go's `strconv.Atoi` with a 64-bit `int`: a decimal integer whose value fits
the type; `none` is a syntax or range error. -/
def atoi (s : String) : Option Int :=
  match decimalValue? s with
  | some v => if -(2 ^ 63 : Int) ≤ v ∧ v < (2 ^ 63 : Int) then some v else none
  | none => none

/-- The year resolved at lines 225 and 228-234 of `parseYearQuarter`. -/
def yearOfParam (now : Date) (yearParam : String) : Except String Int :=
  if yearParam ≠ "" then
    match atoi yearParam with
    | some parsed => if parsed ≤ 0 then .error "invalid year" else .ok parsed
    | none => .error "invalid year"
  else .ok (now.year : Int)

/-- The quarter resolved at lines 226 and 236-242 of `parseYearQuarter`. -/
def quarterOfParam (now : Date) (quarterParam : String) : Except String Int :=
  if quarterParam ≠ "" then
    match atoi quarterParam with
    | some parsed =>
      if parsed < 1 ∨ parsed > 4 then .error "invalid quarter" else .ok parsed
    | none => .error "invalid quarter"
  else .ok (quarterFromDate now : Int)

/-- The function `parseYearQuarter` of `server.go`, on the two query
parameters (empty when absent) and the current date `time.Now()`. -/
def parseYearQuarter (now : Date) (yearParam quarterParam : String) :
    Except String (Int × Int) :=
  match yearOfParam now yearParam with
  | .error err => .error err
  | .ok year =>
    match quarterOfParam now quarterParam with
    | .error err => .error err
    | .ok quarter => .ok (year, quarter)

/-! ## Creating an expense (`Server.handleCreateExpense`) -/

/-- Go's `filepath.Base` with `/` as the path separator. -/
def pathBase (path : String) : String :=
  if path = "" then "."
  else
    let stripped := path.data.rdropWhile (fun c => c = '/')
    let last := (stripped.reverse.takeWhile (fun c => c ≠ '/')).reverse
    if last = [] then "/" else ⟨last⟩

/-- The replacer `strings.NewReplacer("..", "", "/", "", "\\", "")` of
`sanitizeFilename`, scanning from left to right. -/
def replaceDots : List Char → List Char
  | [] => []
  | [c] => if c = '/' ∨ c = '\\' then [] else [c]
  | c :: d :: rest =>
    if c = '/' ∨ c = '\\' then replaceDots (d :: rest)
    else if c = '.' ∧ d = '.' then replaceDots rest
    else c :: replaceDots (d :: rest)

/-- The function `sanitizeFilename` of `server.go`; `lower` is Go's
`unicode.ToLower`, whose table is not reproduced here. -/
def sanitizeFilename (lower : Char → Char) (name : String) : String :=
  let name := (pathBase name).data
  let name := name.map (fun c => if c = ' ' then '-' else c)
  let name := name.map (fun c => if c = '_' then '-' else c)
  let name := name.map lower
  let name := replaceDots name
  if name = [] then "receipt" else ⟨name⟩

/-- The posted form read at lines 104-111 and 146: the form values, the two
attendee arrays, and the file name of the uploaded receipt (`none` when
`c.FormFile("receipt")` fails). -/
structure CreateRequest where
  date : String
  description : String
  amount : String
  receiptUrl : String
  attendeeIdsBracket : List String
  attendeeIds : List String
  receipt : Option String
  deriving DecidableEq

/-- What the collaborators of `handleCreateExpense` answer: the result of
`strconv.ParseFloat` (`none` is its error), Go's `unicode.ToLower`, the two
readings of the clock, and whether a storage operation fails. -/
structure Env where
  parseFloat : String → Option ℚ
  lower : Char → Char
  nowUpload : Int
  nowID : Int
  loadEmployeesFails : Bool
  saveUploadFails : Bool
  loadExpensesFails : Bool
  saveExpensesFails : Bool

/-- The persisted state: the raw roster, the expense list and the saved
receipt files. -/
structure StorageState where
  employees : List employeeRaw
  expenses : List Expense
  uploads : List String
  deriving DecidableEq

/-- The answer of `handleCreateExpense`: an error status with its message, or
status 201 with the enriched view. -/
inductive Response where
  | failure (status : Nat) (message : String)
  | created (view : ExpenseResponse)
  deriving DecidableEq

/-- The attendee ids read at lines 108-111. -/
def submittedAttendees (req : CreateRequest) : List String :=
  if req.attendeeIdsBracket.length = 0 then req.attendeeIds else req.attendeeIdsBracket

/-- The file name given to an uploaded receipt, lines 148-149. -/
def uploadFilename (env : Env) (name : String) : String :=
  toString env.nowUpload ++ "-" ++ sanitizeFilename env.lower name

/-- The expense built at lines 167-174. -/
def newExpense (env : Env) (req : CreateRequest) (amount : ℚ) (receiptURL : String) :
    Expense :=
  { ID := "exp_" ++ toString env.nowID
    Date := trimSpace req.date
    Description := trimSpace req.description
    Amount := amount
    Attendees := submittedAttendees req
    ReceiptURL := receiptURL }

/-- Lines 161-188 of `handleCreateExpense`: load, append, save and answer. -/
def storeExpense (env : Env) (st : StorageState) (employeeMap : String → Option Employee)
    (expense : Expense) : Response × StorageState :=
  if env.loadExpensesFails then (.failure 500 "failed to load expenses", st)
  else if env.saveExpensesFails then (.failure 500 "failed to save expense", st)
  else
    let saved := { st with expenses := st.expenses ++ [expense] }
    match buildExpenseResponse expense employeeMap with
    | none => (.failure 500 "failed to build expense response", saved)
    | some response => (.created response, saved)

/-- The function `handleCreateExpense` of `server.go`, as a transition of the
persisted state. -/
def handleCreateExpense (env : Env) (st : StorageState) (req : CreateRequest) :
    Response × StorageState :=
  let receiptURL := trimSpace req.receiptUrl
  let attendeeIDs := submittedAttendees req
  match env.parseFloat (trimSpace req.amount) with
  | none => (.failure 400 "amount must be a number", st)
  | some amount =>
    if amount ≤ 0 then (.failure 400 "amount must be greater than 0", st)
    else if attendeeIDs.length = 0 then (.failure 400 "at least one attendee is required", st)
    else if (parseDate (trimSpace req.date)).isNone then
      (.failure 400 "date must be in YYYY-MM-DD format", st)
    else if env.loadEmployeesFails then (.failure 500 "failed to load employees", st)
    else
      let employeeMap := mapEmployeesByID (LoadEmployees st.employees)
      match attendeeIDs.find? (fun a => (employeeMap a).isNone) with
      | some attendee => (.failure 400 ("unknown attendee id: " ++ attendee), st)
      | none =>
        match req.receipt with
        | some name =>
          if env.saveUploadFails then (.failure 500 "failed to save receipt", st)
          else
            storeExpense env { st with uploads := st.uploads ++ [uploadFilename env name] }
              employeeMap (newExpense env req amount ("/uploads/" ++ uploadFilename env name))
        | none =>
          if receiptURL = "" then
            (.failure 400 "receipt upload or receipt URL is required", st)
          else storeExpense env st employeeMap (newExpense env req amount receiptURL)

/-! ## The `float64` arithmetic of the budget code

The definitions below model IEEE 754 binary64 as Go computes with it: every
operation returns the double nearest to the exact result, ties to even.  The
functions with suffix `64` are the budget functions of `server.go` on these
values; the functions without suffix above compute with exact rationals and
serve the statements that do not depend on rounding error. -/

/-- A `float64` value: a finite number with its exact rational value, an
infinity with its sign, or NaN.  The sign of zero is not tracked. -/
inductive Float64 where
  | finite (value : ℚ)
  | inf (negative : Bool)
  | nan
  deriving DecidableEq, Repr

/-- The power of two `2^t` as a rational. -/
def pow2 (t : Int) : ℚ :=
  if 0 ≤ t then ((2 ^ t.toNat : Nat) : ℚ) else 1 / ((2 ^ (-t).toNat : Nat) : ℚ)

/-- The loop of `natLog2`, at most `fuel` halvings. -/
def log2Loop : Nat → Nat → Nat
  | 0, _ => 0
  | fuel + 1, n => if n < 2 then 0 else log2Loop fuel (n / 2) + 1

/-- The number of halvings that take a natural number below 2: the exponent of
its leading bit. -/
def natLog2 (n : Nat) : Nat := log2Loop n n

/-- The exponent `e` with `2^e <= a < 2^(e+1)` of a positive rational. -/
def binaryExponent (a : ℚ) : Int :=
  let e : Int := (natLog2 a.num.natAbs : Int) - (natLog2 a.den : Int)
  if pow2 e ≤ a then e else e - 1

/-- Rounding of a non-negative rational to the nearest natural number, halves
to the even neighbour. -/
def roundHalfEven (m : ℚ) : Nat :=
  let f := ⌊m⌋.toNat
  let r := m - (f : ℚ)
  if r < 1 / 2 then f
  else if 1 / 2 < r then f + 1
  else if f % 2 = 0 then f else f + 1

/-- The `float64` nearest to a rational (IEEE 754 binary64, round to nearest,
ties to even): 53 significant bits, least exponent -1022 with gradual
underflow, and overflow to an infinity. -/
def round64 (x : ℚ) : Float64 :=
  if x = 0 then .finite 0
  else
    let a := |x|
    let t := max (binaryExponent a) (-1022) - 52
    let r := (roundHalfEven (a / pow2 t) : ℚ) * pow2 t
    if pow2 1024 ≤ r then .inf (decide (x < 0))
    else .finite (if x < 0 then -r else r)

/-- Negation of a `float64`. -/
def Float64.neg : Float64 → Float64
  | .finite a => .finite (-a)
  | .inf s => .inf (!s)
  | .nan => .nan

/-- Addition of `float64` values. -/
def Float64.add : Float64 → Float64 → Float64
  | .finite a, .finite b => round64 (a + b)
  | .finite _, .inf s => .inf s
  | .inf s, .finite _ => .inf s
  | .inf s, .inf s' => if s = s' then .inf s else .nan
  | _, _ => .nan

/-- Subtraction of `float64` values. -/
def Float64.sub (a b : Float64) : Float64 := a.add b.neg

/-- Multiplication of `float64` values. -/
def Float64.mul : Float64 → Float64 → Float64
  | .finite a, .finite b => round64 (a * b)
  | .finite a, .inf s => if a = 0 then .nan else .inf (xor s (decide (a < 0)))
  | .inf s, .finite b => if b = 0 then .nan else .inf (xor s (decide (b < 0)))
  | .inf s, .inf s' => .inf (xor s s')
  | _, _ => .nan

/-- Division of `float64` values; a zero divisor counts as +0. -/
def Float64.div : Float64 → Float64 → Float64
  | .finite a, .finite b =>
    if b = 0 then (if a = 0 then .nan else .inf (decide (a < 0))) else round64 (a / b)
  | .finite _, .inf _ => .finite 0
  | .inf s, .finite b => .inf (xor s (decide (b < 0)))
  | _, _ => .nan

/-- Go's conversion `float64(n)` of an `int`. -/
def Float64.ofInt (n : Int) : Float64 := round64 (n : ℚ)

/-- Go's `math.Round` on `float64`. -/
def mathRound64 : Float64 → Float64
  | .finite a => .finite (mathRound a : ℚ)
  | v => v

/-- The function `roundCurrency` of `server.go` on `float64`. -/
def roundCurrency64 (value : Float64) : Float64 :=
  (mathRound64 (value.mul (.finite 100))).div (.finite 100)

/-- The `Expense` record of `models.go` with its `float64` amount. -/
structure Expense64 where
  ID : String
  Date : String
  Description : String
  Amount : Float64
  Attendees : List String
  ReceiptURL : String
  deriving DecidableEq

/-- The `ExpenseResponse` record of `models.go` with its `float64` fields. -/
structure ExpenseResponse64 where
  ID : String
  Date : String
  Description : String
  Amount : Float64
  CostPerPerson : Float64
  Attendees : List Employee
  ReceiptURL : String
  deriving DecidableEq

/-- The `BudgetTeam` record of `models.go` with its `float64` fields. -/
structure BudgetTeam64 where
  Team : String
  Department : String
  Headcount : Nat
  Allocated : Float64
  Spent : Float64
  Remaining : Float64
  deriving DecidableEq

/-- The `BudgetDepartment` record of `models.go` with its `float64` fields. -/
structure BudgetDepartment64 where
  Department : String
  Allocated : Float64
  Spent : Float64
  Remaining : Float64
  deriving DecidableEq

/-- The function `buildExpenseResponse` of `server.go` on `float64`; `none` is
`ok = false`. -/
def buildExpenseResponse64 (expense : Expense64) (employeeMap : String → Option Employee) :
    Option ExpenseResponse64 :=
  if expense.Attendees.length = 0 then none
  else some
    { ID := expense.ID
      Date := expense.Date
      Description := expense.Description
      Amount := expense.Amount
      CostPerPerson :=
        roundCurrency64 (expense.Amount.div (Float64.ofInt expense.Attendees.length))
      Attendees := expense.Attendees.map (resolveAttendee employeeMap)
      ReceiptURL := expense.ReceiptURL }

/-- The three maps of `buildTeamBudgets`, the spend in `float64`. -/
structure TeamMaps64 where
  teamHeadcount : GoMap Nat
  teamDepartments : String → String
  teamSpent : GoMap Float64

/-- The body of the roster loop, lines 307-310. -/
def rosterStep64 (st : TeamMaps64) (employee : Employee) : TeamMaps64 :=
  { st with
    teamHeadcount :=
      st.teamHeadcount.set employee.Team (st.teamHeadcount.val employee.Team + 1)
    teamDepartments :=
      fun x => if x = employee.Team then employee.Department else st.teamDepartments x }

/-- The body of the attendee loop, lines 330-341, adding in `float64`. -/
def attendeeStep64 (employeeMap : String → Option Employee) (costPerPerson : Float64)
    (st : TeamMaps64) (attendeeID : String) : TeamMaps64 :=
  match employeeMap attendeeID with
  | none =>
    { st with
      teamSpent :=
        st.teamSpent.set "Unassigned" ((st.teamSpent.val "Unassigned").add costPerPerson)
      teamDepartments := fun x => if x = "Unassigned" then "Unassigned" else st.teamDepartments x }
  | some employee =>
    { st with
      teamSpent :=
        st.teamSpent.set employee.Team ((st.teamSpent.val employee.Team).add costPerPerson)
      teamDepartments :=
        if st.teamDepartments employee.Team = "" then
          fun x => if x = employee.Team then employee.Department else st.teamDepartments x
        else st.teamDepartments }

/-- The body of the expense loop, lines 314-342, dividing in `float64`. -/
def expenseStep64 (employeeMap : String → Option Employee) (year quarter : Int)
    (st : TeamMaps64) (expense : Expense64) : TeamMaps64 :=
  match parseDate expense.Date with
  | none => st
  | some expenseDate =>
    if (expenseDate.year : Int) ≠ year then st
    else if (quarterFromDate expenseDate : Int) > quarter then st
    else if expense.Attendees.length = 0 then st
    else
      let costPerPerson := expense.Amount.div (Float64.ofInt expense.Attendees.length)
      expense.Attendees.foldl (attendeeStep64 employeeMap costPerPerson) st

/-- The maps of `buildTeamBudgets` after both loops, lines 304-342. -/
def teamMaps64 (employees : List Employee) (expenses : List Expense64)
    (employeeMap : String → Option Employee) (year quarter : Int) : TeamMaps64 :=
  expenses.foldl (expenseStep64 employeeMap year quarter)
    (employees.foldl rosterStep64
      { teamHeadcount := GoMap.empty 0, teamDepartments := fun _ => "",
        teamSpent := GoMap.empty (.finite 0) })

/-- The key set `seenTeams`, lines 345-352. -/
def seenTeams64 (st : TeamMaps64) : List String :=
  st.teamHeadcount.keys ++ st.teamSpent.keys.filter (fun t => t ∉ st.teamHeadcount.keys)

/-- The unrounded allocation of line 356:
`quarterBudgetPerPerson * float64(headcount) * float64(quarter)`. -/
def allocated64 (headcount : Nat) (quarter : Int) : Float64 :=
  ((Float64.finite 60).mul (Float64.ofInt headcount)).mul (Float64.ofInt quarter)

/-- The row built for one team, lines 355-365. -/
def teamRow64 (st : TeamMaps64) (quarter : Int) (team : String) : BudgetTeam64 :=
  let headcount := st.teamHeadcount.val team
  let allocated := allocated64 headcount quarter
  let spent := st.teamSpent.val team
  { Team := team
    Department := st.teamDepartments team
    Headcount := headcount
    Allocated := roundCurrency64 allocated
    Spent := roundCurrency64 spent
    Remaining := roundCurrency64 (allocated.sub spent) }

/-- The comparator handed to `sort.Slice` at lines 368-373. -/
def teamLess64 (a b : BudgetTeam64) : Bool :=
  if a.Department = b.Department then a.Team < b.Team
  else a.Department < b.Department

/-- The function `buildTeamBudgets` of `server.go` on `float64`.  The rows
carry pairwise distinct teams, so the order after `sort.Slice` is fixed. -/
def buildTeamBudgets64 (employees : List Employee) (expenses : List Expense64)
    (employeeMap : String → Option Employee) (year quarter : Int) : List BudgetTeam64 :=
  let st := teamMaps64 employees expenses employeeMap year quarter
  ((seenTeams64 st).map (teamRow64 st quarter)).insertionSort
    (fun a b => teamLess64 b a = false)

/-- The body of the accumulation loop of `buildDepartmentBudgets`, lines
381-392, adding in `float64`. -/
def departmentStep64 (departmentTotals : GoMap (Option BudgetDepartment64))
    (team : BudgetTeam64) : GoMap (Option BudgetDepartment64) :=
  let dept := if team.Department = "" then "Unassigned" else team.Department
  let cur : BudgetDepartment64 :=
    match departmentTotals.val dept with
    | some summary => summary
    | none => { Department := dept, Allocated := .finite 0, Spent := .finite 0,
                Remaining := .finite 0 }
  departmentTotals.set dept
    (some { cur with
      Allocated := cur.Allocated.add team.Allocated
      Spent := cur.Spent.add team.Spent
      Remaining := cur.Remaining.add team.Remaining })

/-- The rounding of one summary, lines 396-399. -/
def roundSummary64 (summary : BudgetDepartment64) : BudgetDepartment64 :=
  { summary with
    Allocated := roundCurrency64 summary.Allocated
    Spent := roundCurrency64 summary.Spent
    Remaining := roundCurrency64 summary.Remaining }

/-- The function `buildDepartmentBudgets` of `server.go` on `float64`. -/
def buildDepartmentBudgets64 (teamBudgets : List BudgetTeam64) : List BudgetDepartment64 :=
  let departmentTotals := teamBudgets.foldl departmentStep64 (GoMap.empty none)
  ((departmentTotals.keys.filterMap departmentTotals.val).map roundSummary64).insertionSort
    (fun a b => ¬ b.Department < a.Department)

/-! ### The specification's words on `float64` -/

/-- The exact value of a finite `float64`. -/
def Float64.toRat? : Float64 → Option ℚ
  | .finite a => some a
  | _ => none

/-- The `float64` sum of a list, added from left to right starting at 0, as a
Go loop `total += x` computes it. -/
def floatSum (values : List Float64) : Float64 :=
  values.foldl Float64.add (.finite 0)

/-- The cumulative window on `float64` expenses: the date parses, its year is
the selected year, its quarter is at most the selected quarter, and the
attendee list is not empty. -/
def specInWindow64 (year quarter : Int) (expense : Expense64) : Bool :=
  match parseDate expense.Date with
  | some date =>
    decide ((date.year : Int) = year) && decide ((quarterFromDate date : Int) ≤ quarter)
      && !expense.Attendees.isEmpty
  | none => false

/-- The shares of one expense that fall on a team: `amount / attendeeCount`
once for each attendee counted under that team. -/
def specExpenseShares64 (employeeMap : String → Option Employee) (team : String)
    (expense : Expense64) : List Float64 :=
  (expense.Attendees.filter (fun a => specAttendeeTeam employeeMap a = team)).map
    (fun _ => expense.Amount.div (Float64.ofInt expense.Attendees.length))

/-- The shares of a team over the expenses in the cumulative window, in the
order of the expense list and of each attendee list. -/
def specTeamShares64 (employeeMap : String → Option Employee) (expenses : List Expense64)
    (year quarter : Int) (team : String) : List Float64 :=
  ((expenses.filter (specInWindow64 year quarter)).map
    (specExpenseShares64 employeeMap team)).flatten

/-- The department a `float64` team row is grouped under. -/
def specDepartment64 (team : BudgetTeam64) : String :=
  if team.Department = "" then "Unassigned" else team.Department

/-- The values of one field over the team rows of a department, in row order. -/
def specDepartmentValues64 (field : BudgetTeam64 → Float64)
    (teamBudgets : List BudgetTeam64) (department : String) : List Float64 :=
  (teamBudgets.filter (fun t => specDepartment64 t = department)).map field

/-! ## Fixtures -/

/-- The roster of the end-to-end scenario. -/
def scenarioRoster : List Employee :=
  [ { ID := "a", Name := "", Team := "Eng", Department := "R&D" },
    { ID := "b", Name := "", Team := "Eng", Department := "R&D" } ]

/-- A roster that knows employee "a" only. -/
def rosterOfA : List Employee :=
  [ { ID := "a", Name := "", Team := "Eng", Department := "R&D" } ]

/-- The expense of the end-to-end scenario. -/
def scenarioExpense : Expense :=
  { ID := "x1", Date := "2024-02-01", Description := "", Amount := 100,
    Attendees := ["a", "b"], ReceiptURL := "" }

/-- A roster of three employees on one team. -/
def rosterOfThree : List Employee :=
  [ { ID := "a", Name := "", Team := "Eng", Department := "R&D" },
    { ID := "b", Name := "", Team := "Eng", Department := "R&D" },
    { ID := "c", Name := "", Team := "Eng", Department := "R&D" } ]

/-- Collaborators that never fail; `strconv.ParseFloat` is answered for the
one amount the fixtures post. -/
def sampleEnv : Env :=
  { parseFloat := fun s => if s = "100" then some 100 else none
    lower := toLower
    nowUpload := 1
    nowID := 2
    loadEmployeesFails := false
    saveUploadFails := false
    loadExpensesFails := false
    saveExpensesFails := false }

/-- A persisted state whose roster knows employee "a" only. -/
def sampleState : StorageState :=
  { employees := [{ ID := "a", Name := "Ann", Team := "Eng", Manager := "",
                    Department := "R&D" }]
    expenses := []
    uploads := [] }

/-- A valid request that supplies both an uploaded receipt and a receipt URL. -/
def bothReceiptsRequest : CreateRequest :=
  { date := "2024-02-01", description := "lunch", amount := "100",
    receiptUrl := "http://r", attendeeIdsBracket := ["a"], attendeeIds := [],
    receipt := some "My Receipt.PDF" }

/-- An in-window expense whose only attendee id is unknown to the roster. -/
def unknownExpense : Expense :=
  { ID := "x3", Date := "2024-02-01", Description := "", Amount := 30,
    Attendees := ["x"], ReceiptURL := "" }

/-- A roster with one employee on a team called "Unassigned". -/
def rosterUnassigned : List Employee :=
  [ { ID := "u", Name := "", Team := "Unassigned", Department := "Ops" } ]

/-- An expense of 0.03 (the double nearest to it) for the attendees "a" and "b". -/
def threeCentExpense64 : Expense64 :=
  { ID := "x4", Date := "2024-02-01", Description := "", Amount := round64 (3 / 100),
    Attendees := ["a", "b"], ReceiptURL := "" }

/-- The expense of the end-to-end scenario with its `float64` amount. -/
def scenarioExpense64 : Expense64 :=
  { ID := "x1", Date := "2024-02-01", Description := "", Amount := .finite 100,
    Attendees := ["a", "b"], ReceiptURL := "" }

/-- An expense of 0.125 for the single attendee "a", in `float64`. -/
def tieExpense64 : Expense64 :=
  { ID := "x2", Date := "2024-02-01", Description := "", Amount := .finite (1 / 8),
    Attendees := ["a"], ReceiptURL := "" }

/-- A roster with one employee on each of two teams. -/
def rosterTwoTeams : List Employee :=
  [ { ID := "a", Name := "", Team := "Eng", Department := "R&D" },
    { ID := "b", Name := "", Team := "Ops", Department := "R&D" } ]

/-- Two team rows of one department whose spent fields are the doubles nearest
to 15908079355528.82 and 17402363098525.38. -/
def largeTeamRows64 : List BudgetTeam64 :=
  [ { Team := "A", Department := "R&D", Headcount := 0, Allocated := .finite 0,
      Spent := round64 (1590807935552882 / 100), Remaining := .finite 0 },
    { Team := "B", Department := "R&D", Headcount := 0, Allocated := .finite 0,
      Spent := round64 (1740236309852538 / 100), Remaining := .finite 0 } ]

/-- Team rows over two departments, one of them left empty, in `float64`. -/
def sampleTeamRows64 : List BudgetTeam64 :=
  [ { Team := "Web", Department := "R&D", Headcount := 1, Allocated := .finite 60,
      Spent := round64 (13 / 100), Remaining := round64 (5988 / 100) },
    { Team := "Ops", Department := "", Headcount := 1, Allocated := .finite 60,
      Spent := .finite 0, Remaining := .finite 60 },
    { Team := "Core", Department := "R&D", Headcount := 2, Allocated := .finite 120,
      Spent := .finite 100, Remaining := .finite 20 } ]

/-! # Theorems -/

/-! ## The roster normalizer -/

theorem resolveTeam_ne_empty (raw : employeeRaw) : resolveTeam raw ≠ "" := by
  unfold resolveTeam
  by_cases h1 : trimSpace raw.Team = ""
  · by_cases h2 : trimSpace raw.Manager = ""
    · simp [h1, h2]
    · simp [h1, h2]
  · simp [h1]

theorem resolveDepartment_ne_empty (raw : employeeRaw) : resolveDepartment raw ≠ "" := by
  unfold resolveDepartment
  by_cases h : trimSpace raw.Department = ""
  · simpa [h] using resolveTeam_ne_empty raw
  · simp [h]

theorem loadLoop_team_department (raws : List employeeRaw) :
    ∀ idCounts : String → Nat,
      (loadLoop raws idCounts).map (fun e => (e.Team, e.Department))
        = raws.map (fun r => (resolveTeam r, resolveDepartment r)) := by
  induction raws with
  | nil => intro idCounts; rfl
  | cons raw rest ih =>
    intro idCounts
    simp only [loadLoop, List.map_cons, ih]

theorem loadLoop_same_id (X : String) (hne : X ≠ "") (raws : List employeeRaw) :
    ∀ idCounts : String → Nat, (∀ r ∈ raws, trimSpace r.ID = X) →
      (loadLoop raws idCounts).map (fun e => e.ID)
        = (List.range raws.length).map (fun j =>
            if idCounts X + j = 0 then X
            else X ++ "-" ++ toString (idCounts X + j + 1)) := by
  induction raws with
  | nil => intro idCounts _; rfl
  | cons raw rest ih =>
    intro idCounts h
    have hraw : resolveID raw = X := by
      have := h raw (List.mem_cons_self _ _)
      simp [resolveID, this, hne]
    have hrest : ∀ r ∈ rest, trimSpace r.ID = X :=
      fun r hr => h r (List.mem_cons_of_mem _ hr)
    simp only [loadLoop, List.map_cons, List.length_cons, List.range_succ_eq_map,
      List.map_map, hraw]
    rw [ih _ hrest]
    congr 1
    · by_cases hc : idCounts X = 0
      · simp [hc]
      · have : idCounts X + 1 > 1 := by omega
        simp [hc, this]
    · apply List.map_congr_left
      intro j _
      simp only [if_true, Function.comp_apply]
      have e1 : idCounts X + 1 + j = idCounts X + (j + 1) := by omega
      rw [e1]

/-- C1: the uniqueness of the normalized ids fails on the raw ids "e1", "e1",
"e1-2": the second record is renamed "e1-2", and the third keeps its own id
"e1-2", so two employees share an id. -/
theorem C1_duplicate_id_at_generated_suffix :
    (LoadEmployees [rawOfID "e1", rawOfID "e1", rawOfID "e1-2"]).map (fun e => e.ID)
        = ["e1", "e1-2", "e1-2"] ∧
      ¬ ((LoadEmployees [rawOfID "e1", rawOfID "e1", rawOfID "e1-2"]).map
          (fun e => e.ID)).Nodup := by
  decide

/-- C8: a roster whose records all carry the same non-empty trimmed id X is
normalized to the ids X, X-2, X-3, ... in that order. -/
theorem C8_same_id_suffixes (X : String) (hne : X ≠ "") (raws : List employeeRaw)
    (h : ∀ r ∈ raws, trimSpace r.ID = X) :
    (LoadEmployees raws).map (fun e => e.ID)
      = (List.range raws.length).map (fun j =>
          if j = 0 then X else X ++ "-" ++ toString (j + 1)) := by
  have := loadLoop_same_id X hne raws (fun _ => 0) h
  simpa [LoadEmployees] using this

theorem C8_same_id_suffixes_witness :
    (LoadEmployees [rawOfID "e1", rawOfID " e1 ", rawOfID "e1"]).map (fun e => e.ID)
      = ["e1", "e1-2", "e1-3"] :=
  C8_same_id_suffixes "e1" (by decide) [rawOfID "e1", rawOfID " e1 ", rawOfID "e1"]
    (by decide)

/-- C9: idempotence fails on the raw ids "e1", "e1", "e1-2": the first pass
yields the ids "e1", "e1-2", "e1-2", and normalizing that output again renames
the third employee to "e1-2-2". -/
theorem C9_second_pass_changes_ids :
    (LoadEmployees [rawOfID "e1", rawOfID "e1", rawOfID "e1-2"]).map (fun e => e.ID)
        = ["e1", "e1-2", "e1-2"] ∧
      (LoadEmployees ((LoadEmployees
          [rawOfID "e1", rawOfID "e1", rawOfID "e1-2"]).map toRaw)).map (fun e => e.ID)
        = ["e1", "e1-2", "e1-2-2"] := by
  decide

/-- C10: the normalizer keeps length and order; the team of the i-th employee
is the trimmed team of the i-th record, else its trimmed manager, else
"Unassigned"; its department is the trimmed department, else that team; and no
returned team or department is empty. -/
theorem C10_team_department_resolution (raws : List employeeRaw) :
    (LoadEmployees raws).map (fun e => (e.Team, e.Department))
        = raws.map (fun r =>
            (if trimSpace r.Team ≠ "" then trimSpace r.Team
              else if trimSpace r.Manager ≠ "" then trimSpace r.Manager
              else "Unassigned",
             if trimSpace r.Department ≠ "" then trimSpace r.Department
              else if trimSpace r.Team ≠ "" then trimSpace r.Team
              else if trimSpace r.Manager ≠ "" then trimSpace r.Manager
              else "Unassigned")) ∧
      (LoadEmployees raws).length = raws.length ∧
      ∀ e ∈ LoadEmployees raws, e.Team ≠ "" ∧ e.Department ≠ "" := by
  have hmap := loadLoop_team_department raws (fun _ => 0)
  have hspec : ∀ r : employeeRaw,
      (resolveTeam r, resolveDepartment r) =
        (if trimSpace r.Team ≠ "" then trimSpace r.Team
          else if trimSpace r.Manager ≠ "" then trimSpace r.Manager
          else "Unassigned",
         if trimSpace r.Department ≠ "" then trimSpace r.Department
          else if trimSpace r.Team ≠ "" then trimSpace r.Team
          else if trimSpace r.Manager ≠ "" then trimSpace r.Manager
          else "Unassigned") := by
    intro r
    unfold resolveDepartment resolveTeam
    by_cases h1 : trimSpace r.Team = "" <;> by_cases h2 : trimSpace r.Manager = "" <;>
      by_cases h3 : trimSpace r.Department = "" <;> simp [h1, h2, h3]
  refine ⟨?_, ?_, ?_⟩
  · rw [LoadEmployees, hmap]
    exact List.map_congr_left (fun r _ => hspec r)
  · have := congrArg List.length hmap
    simpa [LoadEmployees] using this
  · intro e he
    have hmem : (e.Team, e.Department) ∈
        (LoadEmployees raws).map (fun e => (e.Team, e.Department)) :=
      List.mem_map_of_mem _ he
    rw [LoadEmployees, hmap] at hmem
    obtain ⟨r, _, hr⟩ := List.mem_map.1 hmem
    have ht : resolveTeam r = e.Team := congrArg Prod.fst hr
    have hd : resolveDepartment r = e.Department := congrArg Prod.snd hr
    exact ⟨ht ▸ resolveTeam_ne_empty r, hd ▸ resolveDepartment_ne_empty r⟩

theorem C10_team_department_resolution_witness :
    (LoadEmployees [{ ID := "", Name := "Ann", Team := " ", Manager := " Core ",
                      Department := "" }]).map (fun e => (e.Team, e.Department))
      = [("Core", "Core")] := by
  have h := (C10_team_department_resolution
    [{ ID := "", Name := "Ann", Team := " ", Manager := " Core ", Department := "" }]).1
  rw [h]
  decide

/-! ## Rounding -/

theorem mathRound_eq_of_near (x : ℚ) (r : ℤ) (h : |(r : ℚ) - x| < 1 / 2) :
    mathRound x = r := by
  have h1 := (abs_lt.1 h).1
  have h2 := (abs_lt.1 h).2
  unfold mathRound
  split_ifs with hx
  · rw [Int.floor_eq_iff]
    constructor <;> linarith
  · rw [neg_eq_iff_eq_neg, Int.floor_eq_iff]
    push_cast
    constructor <;> linarith

theorem mathRound_sub_le (x : ℚ) : |(mathRound x : ℚ) - x| ≤ 1 / 2 := by
  unfold mathRound
  split_ifs with hx
  · have h1 := Int.floor_le (x + 1 / 2)
    have h2 := Int.lt_floor_add_one (x + 1 / 2)
    rw [abs_le]
    constructor <;> linarith
  · have h1 := Int.floor_le (-x + 1 / 2)
    have h2 := Int.lt_floor_add_one (-x + 1 / 2)
    push_cast
    rw [abs_le]
    constructor <;> linarith

theorem mathRound_intCast (n : ℤ) : mathRound (n : ℚ) = n :=
  mathRound_eq_of_near _ _ (by simp)

theorem roundCurrency_sub_le (x : ℚ) : |roundCurrency x - x| ≤ 1 / 200 := by
  have h := mathRound_sub_le (x * 100)
  unfold roundCurrency
  rw [abs_le] at h ⊢
  constructor <;> linarith [h.1, h.2]

theorem roundCurrency_cents (n : ℤ) : roundCurrency ((n : ℚ) / 100) = (n : ℚ) / 100 := by
  unfold roundCurrency
  have : (n : ℚ) / 100 * 100 = (n : ℚ) := by ring
  rw [this, mathRound_intCast]

theorem roundCurrency_intCast (n : ℤ) : roundCurrency (n : ℚ) = (n : ℚ) := by
  have h := roundCurrency_cents (n * 100)
  have e : (((n * 100 : ℤ)) : ℚ) / 100 = (n : ℚ) := by push_cast; ring
  rwa [e] at h

/-! ## Expense enrichment -/

theorem buildExpenseResponse_of_attendees (expense : Expense)
    (employeeMap : String → Option Employee) (h : expense.Attendees.length ≠ 0) :
    buildExpenseResponse expense employeeMap = some
      { ID := expense.ID
        Date := expense.Date
        Description := expense.Description
        Amount := expense.Amount
        CostPerPerson := roundCurrency (expense.Amount / (expense.Attendees.length : ℚ))
        Attendees := expense.Attendees.map (resolveAttendee employeeMap)
        ReceiptURL := expense.ReceiptURL } := by
  simp only [buildExpenseResponse, if_neg h]

/-! ## Team budgets -/

theorem attendeeStep_headcount (employeeMap : String → Option Employee) (c : ℚ)
    (st : TeamMaps) (a : String) :
    (attendeeStep employeeMap c st a).teamHeadcount = st.teamHeadcount := by
  unfold attendeeStep
  cases employeeMap a <;> rfl

theorem attendeeStep_spent (employeeMap : String → Option Employee) (c : ℚ)
    (st : TeamMaps) (a : String) (t : String) :
    (attendeeStep employeeMap c st a).teamSpent.val t
      = st.teamSpent.val t + (if specAttendeeTeam employeeMap a = t then c else 0) := by
  unfold attendeeStep specAttendeeTeam
  cases h : employeeMap a with
  | none =>
    by_cases ht : t = "Unassigned"
    · subst ht; simp [GoMap.set]
    · have : ¬ "Unassigned" = t := fun e => ht e.symm
      simp [GoMap.set, ht, this]
  | some employee =>
    by_cases ht : t = employee.Team
    · subst ht; simp [GoMap.set]
    · have : ¬ employee.Team = t := fun e => ht e.symm
      simp [GoMap.set, ht, this]

theorem attendees_foldl_headcount (employeeMap : String → Option Employee) (c : ℚ)
    (as : List String) :
    ∀ st : TeamMaps,
      (as.foldl (attendeeStep employeeMap c) st).teamHeadcount = st.teamHeadcount := by
  induction as with
  | nil => intro st; rfl
  | cons a rest ih =>
    intro st
    rw [List.foldl_cons, ih, attendeeStep_headcount]

theorem attendees_foldl_spent (employeeMap : String → Option Employee) (c : ℚ)
    (t : String) (as : List String) :
    ∀ st : TeamMaps,
      (as.foldl (attendeeStep employeeMap c) st).teamSpent.val t
        = st.teamSpent.val t
          + ((as.filter (fun a => specAttendeeTeam employeeMap a = t)).map
              (fun _ => c)).sum := by
  induction as with
  | nil => intro st; simp
  | cons a rest ih =>
    intro st
    rw [List.foldl_cons, ih, attendeeStep_spent]
    by_cases h : specAttendeeTeam employeeMap a = t
    · simp [List.filter_cons, h, add_assoc]
    · simp [List.filter_cons, h]

theorem expenseStep_headcount (employeeMap : String → Option Employee)
    (year quarter : Int) (st : TeamMaps) (expense : Expense) :
    (expenseStep employeeMap year quarter st expense).teamHeadcount
      = st.teamHeadcount := by
  unfold expenseStep
  split
  · rfl
  · split_ifs
    · rfl
    · rfl
    · rfl
    · exact attendees_foldl_headcount _ _ _ _

theorem expenseStep_spent (employeeMap : String → Option Employee)
    (year quarter : Int) (st : TeamMaps) (expense : Expense) (t : String) :
    (expenseStep employeeMap year quarter st expense).teamSpent.val t
      = st.teamSpent.val t
        + (if specInWindow year quarter expense then
            specExpenseShare employeeMap t expense else 0) := by
  unfold expenseStep specInWindow
  cases hdate : parseDate expense.Date with
  | none => simp
  | some date =>
    simp only
    by_cases h1 : (date.year : Int) = year
    · by_cases h2 : (quarterFromDate date : Int) > quarter
      · have h2' : ¬ (quarterFromDate date : Int) ≤ quarter := by omega
        simp [h1, h2, h2']
      · have h2' : (quarterFromDate date : Int) ≤ quarter := by omega
        by_cases h3 : expense.Attendees = []
        · simp [h1, h2, h3]
        · have h3' : ¬ expense.Attendees.length = 0 := by
            simpa [List.length_eq_zero] using h3
          simp only [h1, h2, h3', h2', ne_eq, not_true_eq_false, if_false, if_true,
            decide_True, Bool.true_and, List.isEmpty_iff, h3, decide_False, Bool.not_false]
          rw [attendees_foldl_spent]
          have h4 : expense.Attendees.isEmpty = false := by
            cases hA : expense.Attendees with
            | nil => exact absurd hA h3
            | cons a as => rfl
          simp [h4, specExpenseShare]
    · simp [h1]

theorem expenses_foldl_headcount (employeeMap : String → Option Employee)
    (year quarter : Int) (expenses : List Expense) :
    ∀ st : TeamMaps,
      (expenses.foldl (expenseStep employeeMap year quarter) st).teamHeadcount
        = st.teamHeadcount := by
  induction expenses with
  | nil => intro st; rfl
  | cons e rest ih =>
    intro st
    rw [List.foldl_cons, ih, expenseStep_headcount]

theorem expenses_foldl_spent (employeeMap : String → Option Employee)
    (year quarter : Int) (t : String) (expenses : List Expense) :
    ∀ st : TeamMaps,
      (expenses.foldl (expenseStep employeeMap year quarter) st).teamSpent.val t
        = st.teamSpent.val t + specTeamSpent employeeMap expenses year quarter t := by
  induction expenses with
  | nil => intro st; simp [specTeamSpent]
  | cons e rest ih =>
    intro st
    rw [List.foldl_cons, ih, expenseStep_spent]
    unfold specTeamSpent
    by_cases h : specInWindow year quarter e = true
    · simp [List.filter_cons, h, add_assoc]
    · simp [List.filter_cons, h]

theorem roster_foldl_spent (employees : List Employee) :
    ∀ st : TeamMaps, (employees.foldl rosterStep st).teamSpent = st.teamSpent := by
  induction employees with
  | nil => intro st; rfl
  | cons e rest ih => intro st; rw [List.foldl_cons, ih]; rfl

theorem roster_foldl_headcount (t : String) (employees : List Employee) :
    ∀ st : TeamMaps,
      (employees.foldl rosterStep st).teamHeadcount.val t
        = st.teamHeadcount.val t + (employees.filter (fun e => e.Team = t)).length := by
  induction employees with
  | nil => intro st; simp
  | cons e rest ih =>
    intro st
    rw [List.foldl_cons, ih]
    by_cases h : e.Team = t
    · subst h
      simp [rosterStep, GoMap.set, List.filter_cons]
      omega
    · have h' : ¬ t = e.Team := fun x => h x.symm
      simp [rosterStep, GoMap.set, List.filter_cons, h, h']

theorem teamMaps_spent (employees : List Employee) (expenses : List Expense)
    (employeeMap : String → Option Employee) (year quarter : Int) (t : String) :
    (teamMaps employees expenses employeeMap year quarter).teamSpent.val t
      = specTeamSpent employeeMap expenses year quarter t := by
  unfold teamMaps
  rw [expenses_foldl_spent, roster_foldl_spent]
  simp [GoMap.empty]

theorem teamMaps_headcount (employees : List Employee) (expenses : List Expense)
    (employeeMap : String → Option Employee) (year quarter : Int) (t : String) :
    (teamMaps employees expenses employeeMap year quarter).teamHeadcount.val t
      = (employees.filter (fun e => e.Team = t)).length := by
  unfold teamMaps
  rw [expenses_foldl_headcount, roster_foldl_headcount]
  simp [GoMap.empty]

theorem mem_buildTeamBudgets (employees : List Employee) (expenses : List Expense)
    (employeeMap : String → Option Employee) (year quarter : Int) (row : BudgetTeam) :
    row ∈ buildTeamBudgets employees expenses employeeMap year quarter ↔
      ∃ team ∈ seenTeams (teamMaps employees expenses employeeMap year quarter),
        teamRow (teamMaps employees expenses employeeMap year quarter) quarter team
          = row := by
  unfold buildTeamBudgets
  simp only
  rw [(List.perm_insertionSort _ _).mem_iff, List.mem_map]

theorem allocated_eq_cast (headcount : Nat) (quarter : Int) :
    quarterBudgetPerPerson * (headcount : ℚ) * (quarter : ℚ)
      = (((60 * (headcount : Int) * quarter : Int)) : ℚ) := by
  unfold quarterBudgetPerPerson
  push_cast
  ring

/-- C3: every team row has headcount equal to the number of roster employees
on the row's team, and allocated equal to 60 x headcount x quarter, which is
its own rounding to 2 decimals. -/
theorem C3_headcount_and_allocation (employees : List Employee)
    (expenses : List Expense) (employeeMap : String → Option Employee)
    (year quarter : Int) (row : BudgetTeam)
    (hrow : row ∈ buildTeamBudgets employees expenses employeeMap year quarter) :
    row.Headcount = (employees.filter (fun e => e.Team = row.Team)).length ∧
    row.Allocated = 60 * (row.Headcount : ℚ) * (quarter : ℚ) ∧
    row.Allocated = roundCurrency (60 * (row.Headcount : ℚ) * (quarter : ℚ)) := by
  obtain ⟨team, -, rfl⟩ := (mem_buildTeamBudgets _ _ _ _ _ _).1 hrow
  have h := allocated_eq_cast
    ((teamMaps employees expenses employeeMap year quarter).teamHeadcount.val team) quarter
  have h60 : (60 : ℚ) = quarterBudgetPerPerson := rfl
  refine ⟨by simp only [teamRow, teamMaps_headcount], ?_, ?_⟩
  · simp only [teamRow]
    rw [h60, h, roundCurrency_intCast]
  · simp only [teamRow]
    rw [h60]

theorem C3_headcount_and_allocation_witness :
    (({ Team := "Eng", Department := "R&D", Headcount := 3, Allocated := 360,
        Spent := 0, Remaining := 360 } : BudgetTeam).Headcount
      = (rosterOfThree.filter (fun e => e.Team = "Eng")).length) ∧
    (360 : ℚ) = 60 * ((3 : Nat) : ℚ) * ((2 : Int) : ℚ) ∧
    (360 : ℚ) = roundCurrency (60 * ((3 : Nat) : ℚ) * ((2 : Int) : ℚ)) :=
  C3_headcount_and_allocation rosterOfThree [] (mapEmployeesByID rosterOfThree) 2024 2
    { Team := "Eng", Department := "R&D", Headcount := 3, Allocated := 360,
      Spent := 0, Remaining := 360 } (by decide!)

/-! ## A list lemma -/

theorem filterMap_eq_map_of_some {α β : Type} (l : List α) (f : α → Option β)
    (g : α → β) (h : ∀ a ∈ l, f a = some (g a)) : l.filterMap f = l.map g := by
  induction l with
  | nil => rfl
  | cons a rest ih =>
    rw [List.filterMap_cons, h a (List.mem_cons_self _ _), List.map_cons,
      ih (fun x hx => h x (List.mem_cons_of_mem _ hx))]

/-! ## Rounding rule and quarters -/

theorem parseDate_month_range (s : String) (date : Date) (h : parseDate s = some date) :
    1 ≤ date.month ∧ date.month ≤ 12 := by
  unfold parseDate at h
  split at h
  · split at h
    · dsimp only at h
      split_ifs at h with hc
      cases h
      exact ⟨hc.2.2.1, hc.2.2.2.1⟩
    · cases h
  · cases h

/-- C14: for a date whose month m is in 1..12, `quarterFromDate` is
(m-1)/3 + 1 and lies in 1..4: months 1-3 give 1, 4-6 give 2, 7-9 give 3 and
10-12 give 4. -/
theorem C14_quarter_from_month (date : Date) (h1 : 1 ≤ date.month) (h12 : date.month ≤ 12) :
    quarterFromDate date = (date.month - 1) / 3 + 1 ∧
    1 ≤ quarterFromDate date ∧ quarterFromDate date ≤ 4 ∧
    (date.month ≤ 3 → quarterFromDate date = 1) ∧
    (4 ≤ date.month → date.month ≤ 6 → quarterFromDate date = 2) ∧
    (7 ≤ date.month → date.month ≤ 9 → quarterFromDate date = 3) ∧
    (10 ≤ date.month → quarterFromDate date = 4) := by
  unfold quarterFromDate
  refine ⟨rfl, by omega, by omega, fun _ => by omega, fun _ _ => by omega,
    fun _ _ => by omega, fun _ => by omega⟩

theorem C14_quarter_from_month_witness :
    quarterFromDate { year := 2024, month := 9, day := 30 } = 3 :=
  (C14_quarter_from_month { year := 2024, month := 9, day := 30 } (by decide)
    (by decide)).2.2.2.2.2.1 (by decide) (by decide)

/-! ## Listing the expenses of a quarter -/

theorem filterStep_eq (employeeMap : String → Option Employee) (year quarter : Int)
    (filtered : List ExpenseResponse) (expense : Expense) :
    filterStep employeeMap year quarter filtered expense
      = filtered ++ ([expense].filter (specInQuarter year quarter)).filterMap
          (fun e => buildExpenseResponse e employeeMap) := by
  unfold filterStep specInQuarter
  cases hdate : parseDate expense.Date with
  | none => simp [hdate]
  | some date =>
    by_cases h1 : (date.year : Int) = year
    · by_cases h2 : (quarterFromDate date : Int) = quarter
      · by_cases h3 : expense.Attendees = []
        · simp [hdate, h1, h2, h3, buildExpenseResponse]
        · have hlen : expense.Attendees.length ≠ 0 := by
            simpa [List.length_eq_zero] using h3
          have h4 : expense.Attendees.isEmpty = false := by
            cases hA : expense.Attendees with
            | nil => exact absurd hA h3
            | cons a as => rfl
          simp [hdate, h1, h2, h4, buildExpenseResponse_of_attendees _ _ hlen]
      · simp [hdate, h1, h2]
    · simp [hdate, h1]

theorem filterStep_foldl (employeeMap : String → Option Employee) (year quarter : Int)
    (expenses : List Expense) :
    ∀ filtered : List ExpenseResponse,
      expenses.foldl (filterStep employeeMap year quarter) filtered
        = filtered ++ (expenses.filter (specInQuarter year quarter)).filterMap
            (fun e => buildExpenseResponse e employeeMap) := by
  induction expenses with
  | nil => intro filtered; simp
  | cons e rest ih =>
    intro filtered
    rw [List.foldl_cons, ih, filterStep_eq]
    by_cases h : specInQuarter year quarter e = true
    · rw [List.filter_cons, if_pos h, List.filter_cons, if_pos h, List.filter_nil,
        List.append_assoc, ← List.filterMap_append, List.singleton_append]
    · simp [List.filter_cons, h]

/-- C11: the list returned by the `handleExpenses` path is a permutation of
the enriched views of the expenses whose date parses, whose year and quarter
equal the selected ones exactly and whose attendee list is not empty, each of
these expenses having a view, and it is ordered by date string non-increasing. -/
theorem C11_expense_listing (expenses : List Expense)
    (employeeMap : String → Option Employee) (year quarter : Int) :
    (handleExpenses expenses employeeMap year quarter).Perm
      ((expenses.filter (specInQuarter year quarter)).filterMap
        (fun e => buildExpenseResponse e employeeMap)) ∧
    (∀ e ∈ expenses.filter (specInQuarter year quarter),
      ∃ view, buildExpenseResponse e employeeMap = some view) ∧
    (handleExpenses expenses employeeMap year quarter).length
      = (expenses.filter (specInQuarter year quarter)).length ∧
    (handleExpenses expenses employeeMap year quarter).Sorted
      (fun a b => b.Date ≤ a.Date) := by
  have hsome : ∀ e ∈ expenses.filter (specInQuarter year quarter),
      ∃ view, buildExpenseResponse e employeeMap = some view := by
    intro e he
    have hq : specInQuarter year quarter e = true := (List.mem_filter.1 he).2
    have hne : e.Attendees.length ≠ 0 := by
      intro hlen
      have hnil : e.Attendees = [] := List.length_eq_zero.1 hlen
      unfold specInQuarter at hq
      cases hdate : parseDate e.Date with
      | none => simp [hdate] at hq
      | some date => simp [hdate, hnil] at hq
    exact ⟨_, buildExpenseResponse_of_attendees e employeeMap hne⟩
  have hperm : (handleExpenses expenses employeeMap year quarter).Perm
      ((expenses.filter (specInQuarter year quarter)).filterMap
        (fun e => buildExpenseResponse e employeeMap)) := by
    unfold handleExpenses
    refine (List.perm_insertionSort _ _).trans ?_
    rw [filterStep_foldl, List.nil_append]
  refine ⟨hperm, hsome, ?_, ?_⟩
  · rw [hperm.length_eq]
    have hmap : (expenses.filter (specInQuarter year quarter)).filterMap
          (fun e => buildExpenseResponse e employeeMap)
        = (expenses.filter (specInQuarter year quarter)).map (fun e =>
            ({ ID := e.ID, Date := e.Date, Description := e.Description,
               Amount := e.Amount,
               CostPerPerson := roundCurrency (e.Amount / (e.Attendees.length : ℚ)),
               Attendees := e.Attendees.map (resolveAttendee employeeMap),
               ReceiptURL := e.ReceiptURL } : ExpenseResponse)) := by
      apply filterMap_eq_map_of_some
      intro e he
      obtain ⟨view, hview⟩ := hsome e he
      have hne : e.Attendees.length ≠ 0 := by
        intro hlen
        simp [buildExpenseResponse, hlen] at hview
      exact buildExpenseResponse_of_attendees e employeeMap hne
    rw [hmap, List.length_map]
  · haveI : IsTotal ExpenseResponse (fun a b => ¬ b.Date > a.Date) :=
      ⟨fun a b => by simp only [gt_iff_lt, not_lt]; exact le_total _ _⟩
    haveI : IsTrans ExpenseResponse (fun a b => ¬ b.Date > a.Date) :=
      ⟨fun a b c => by simp only [gt_iff_lt, not_lt]; exact fun h1 h2 => le_trans h2 h1⟩
    have h := List.sorted_insertionSort (fun a b : ExpenseResponse => ¬ b.Date > a.Date)
      (expenses.foldl (filterStep employeeMap year quarter) [])
    unfold handleExpenses
    exact h.imp (fun hab => not_lt.1 hab)

theorem C11_expense_listing_witness :
    (handleExpenses [scenarioExpense] (mapEmployeesByID scenarioRoster) 2024 1).Perm
      (([scenarioExpense].filter (specInQuarter 2024 1)).filterMap
        (fun e => buildExpenseResponse e (mapEmployeesByID scenarioRoster))) :=
  (C11_expense_listing [scenarioExpense] (mapEmployeesByID scenarioRoster) 2024 1).1

/-! ## The row set of the team budgets -/

theorem goMap_mem_set_keys {V : Type} (m : GoMap V) (k : String) (v : V) (x : String) :
    x ∈ (m.set k v).keys ↔ x ∈ m.keys ∨ x = k := by
  unfold GoMap.set
  by_cases hk : k ∈ m.keys
  · simp only [hk, if_true]
    constructor
    · exact Or.inl
    · rintro (h | h)
      · exact h
      · exact h ▸ hk
  · simp [hk]

theorem goMap_nodup_set_keys {V : Type} (m : GoMap V) (k : String) (v : V)
    (h : m.keys.Nodup) : (m.set k v).keys.Nodup := by
  unfold GoMap.set
  by_cases hk : k ∈ m.keys
  · simpa [hk] using h
  · simp only [hk, if_false]
    rw [List.nodup_append]
    refine ⟨h, List.nodup_singleton _, ?_⟩
    intro a ha hb
    rw [List.mem_singleton] at hb
    exact hk (hb ▸ ha)

theorem roster_foldl_keys (employees : List Employee) :
    ∀ st : TeamMaps, st.teamHeadcount.keys.Nodup →
      (employees.foldl rosterStep st).teamHeadcount.keys.Nodup ∧
      ∀ t, t ∈ (employees.foldl rosterStep st).teamHeadcount.keys ↔
        t ∈ st.teamHeadcount.keys ∨ ∃ e ∈ employees, e.Team = t := by
  induction employees with
  | nil => intro st h; simp [h]
  | cons e rest ih =>
    intro st h
    rw [List.foldl_cons]
    have hstep : (rosterStep st e).teamHeadcount.keys.Nodup :=
      goMap_nodup_set_keys _ _ _ h
    obtain ⟨h1, h2⟩ := ih (rosterStep st e) hstep
    refine ⟨h1, fun t => ?_⟩
    rw [h2]
    simp only [rosterStep, goMap_mem_set_keys, List.mem_cons, exists_eq_or_imp]
    constructor
    · rintro ((h | h) | h)
      · exact Or.inl h
      · exact Or.inr (Or.inl h.symm)
      · exact Or.inr (Or.inr h)
    · rintro (h | h | h)
      · exact Or.inl (Or.inl h)
      · exact Or.inl (Or.inr h.symm)
      · exact Or.inr h

theorem attendeeStep_keys (employeeMap : String → Option Employee) (c : ℚ)
    (st : TeamMaps) (a : String) (h : st.teamSpent.keys.Nodup) :
    (attendeeStep employeeMap c st a).teamSpent.keys.Nodup ∧
    ∀ t, t ∈ (attendeeStep employeeMap c st a).teamSpent.keys ↔
      t ∈ st.teamSpent.keys ∨ specAttendeeTeam employeeMap a = t := by
  unfold attendeeStep specAttendeeTeam
  cases employeeMap a with
  | none =>
    refine ⟨goMap_nodup_set_keys _ _ _ h, fun t => ?_⟩
    simp only [goMap_mem_set_keys]
    exact or_congr Iff.rfl eq_comm
  | some employee =>
    refine ⟨goMap_nodup_set_keys _ _ _ h, fun t => ?_⟩
    simp only [goMap_mem_set_keys]
    exact or_congr Iff.rfl eq_comm

theorem attendees_foldl_keys (employeeMap : String → Option Employee) (c : ℚ)
    (as : List String) :
    ∀ st : TeamMaps, st.teamSpent.keys.Nodup →
      (as.foldl (attendeeStep employeeMap c) st).teamSpent.keys.Nodup ∧
      ∀ t, t ∈ (as.foldl (attendeeStep employeeMap c) st).teamSpent.keys ↔
        t ∈ st.teamSpent.keys ∨ ∃ a ∈ as, specAttendeeTeam employeeMap a = t := by
  induction as with
  | nil => intro st h; simp [h]
  | cons a rest ih =>
    intro st h
    rw [List.foldl_cons]
    obtain ⟨hs1, hs2⟩ := attendeeStep_keys employeeMap c st a h
    obtain ⟨h1, h2⟩ := ih _ hs1
    refine ⟨h1, fun t => ?_⟩
    rw [h2, hs2]
    simp only [List.mem_cons, exists_eq_or_imp, or_assoc]

theorem expenseStep_keys (employeeMap : String → Option Employee)
    (year quarter : Int) (st : TeamMaps) (expense : Expense)
    (h : st.teamSpent.keys.Nodup) :
    (expenseStep employeeMap year quarter st expense).teamSpent.keys.Nodup ∧
    ∀ t, t ∈ (expenseStep employeeMap year quarter st expense).teamSpent.keys ↔
      t ∈ st.teamSpent.keys ∨
        (specInWindow year quarter expense = true ∧
          ∃ a ∈ expense.Attendees, specAttendeeTeam employeeMap a = t) := by
  unfold expenseStep specInWindow
  cases hdate : parseDate expense.Date with
  | none => simp [h]
  | some date =>
    simp only
    by_cases h1 : (date.year : Int) = year
    · by_cases h2 : (quarterFromDate date : Int) > quarter
      · have h2' : ¬ (quarterFromDate date : Int) ≤ quarter := by omega
        simp [h1, h2, h2', h]
      · have h2' : (quarterFromDate date : Int) ≤ quarter := by omega
        by_cases h3 : expense.Attendees = []
        · simp [h1, h2, h3, h]
        · have h3' : ¬ expense.Attendees.length = 0 := by
            simpa [List.length_eq_zero] using h3
          have h4 : expense.Attendees.isEmpty = false := by
            cases hA : expense.Attendees with
            | nil => exact absurd hA h3
            | cons a as => rfl
          simp only [h1, h2, h3', h2', ne_eq, not_true_eq_false, if_false,
            decide_True, Bool.true_and, h4, Bool.not_false, true_and]
          exact attendees_foldl_keys employeeMap _ expense.Attendees st h
    · simp [h1, h]

theorem expenses_foldl_keys (employeeMap : String → Option Employee)
    (year quarter : Int) (expenses : List Expense) :
    ∀ st : TeamMaps, st.teamSpent.keys.Nodup →
      (expenses.foldl (expenseStep employeeMap year quarter) st).teamSpent.keys.Nodup ∧
      ∀ t, t ∈ (expenses.foldl (expenseStep employeeMap year quarter) st).teamSpent.keys ↔
        t ∈ st.teamSpent.keys ∨
          ∃ x ∈ expenses, specInWindow year quarter x = true ∧
            ∃ a ∈ x.Attendees, specAttendeeTeam employeeMap a = t := by
  induction expenses with
  | nil => intro st h; simp [h]
  | cons e rest ih =>
    intro st h
    rw [List.foldl_cons]
    obtain ⟨hs1, hs2⟩ := expenseStep_keys employeeMap year quarter st e h
    obtain ⟨h1, h2⟩ := ih _ hs1
    refine ⟨h1, fun t => ?_⟩
    rw [h2, hs2]
    simp only [List.mem_cons, exists_eq_or_imp, or_assoc]

theorem seenTeams_spec (employees : List Employee) (expenses : List Expense)
    (employeeMap : String → Option Employee) (year quarter : Int) :
    (seenTeams (teamMaps employees expenses employeeMap year quarter)).Nodup ∧
    ∀ t, t ∈ seenTeams (teamMaps employees expenses employeeMap year quarter) ↔
      (∃ e ∈ employees, e.Team = t) ∨
        ∃ x ∈ expenses, specInWindow year quarter x = true ∧
          ∃ a ∈ x.Attendees, specAttendeeTeam employeeMap a = t := by
  have hinit : (List.foldl rosterStep
      { teamHeadcount := GoMap.empty 0, teamDepartments := fun _ => "",
        teamSpent := GoMap.empty 0 } employees).teamSpent = GoMap.empty 0 :=
    roster_foldl_spent employees _
  obtain ⟨hh1, hh2⟩ := roster_foldl_keys employees
    { teamHeadcount := GoMap.empty 0, teamDepartments := fun _ => "",
      teamSpent := GoMap.empty 0 } (by simp [GoMap.empty])
  obtain ⟨hs1, hs2⟩ := expenses_foldl_keys employeeMap year quarter expenses
    (List.foldl rosterStep
      { teamHeadcount := GoMap.empty 0, teamDepartments := fun _ => "",
        teamSpent := GoMap.empty 0 } employees) (by rw [hinit]; simp [GoMap.empty])
  have hhead : (teamMaps employees expenses employeeMap year quarter).teamHeadcount
      = (List.foldl rosterStep
          { teamHeadcount := GoMap.empty 0, teamDepartments := fun _ => "",
            teamSpent := GoMap.empty 0 } employees).teamHeadcount :=
    expenses_foldl_headcount _ _ _ _ _
  unfold seenTeams
  rw [hhead]
  unfold teamMaps
  constructor
  · rw [List.nodup_append]
    refine ⟨hh1, hs1.filter _, ?_⟩
    intro a ha hb
    have := (List.mem_filter.1 hb).2
    simp only [decide_eq_true_eq] at this
    exact this ha
  · intro t
    rw [List.mem_append, List.mem_filter, hs2, hinit]
    simp only [decide_eq_true_eq]
    have hh := hh2 t
    have hempty : t ∉ (GoMap.empty (0 : ℚ)).keys := by simp [GoMap.empty]
    constructor
    · rintro (h | ⟨h | h, -⟩)
      · exact Or.inl ((hh.1 h).resolve_left (by simp [GoMap.empty]))
      · exact absurd h hempty
      · exact Or.inr h
    · rintro (h | h)
      · exact Or.inl (hh.2 (Or.inr h))
      · by_cases hm : t ∈ (List.foldl rosterStep
            { teamHeadcount := GoMap.empty 0, teamDepartments := fun _ => "",
              teamSpent := GoMap.empty 0 } employees).teamHeadcount.keys
        · exact Or.inl hm
        · exact Or.inr ⟨Or.inr h, hm⟩

theorem teamLess_eq_false_iff (a b : BudgetTeam) :
    teamLess b a = false ↔
      toLex (a.Department, a.Team) ≤ toLex (b.Department, b.Team) := by
  rw [Prod.Lex.le_iff]
  unfold teamLess
  by_cases h : b.Department = a.Department
  · simp [h]
  · simp only [h, if_false, decide_eq_false_iff_not, not_lt]
    constructor
    · intro hle
      exact Or.inl (lt_of_le_of_ne hle (fun e => h e.symm))
    · rintro (hlt | ⟨heq, -⟩)
      · exact hlt.le
      · exact absurd heq.symm h

theorem buildTeamBudgets_perm (employees : List Employee) (expenses : List Expense)
    (employeeMap : String → Option Employee) (year quarter : Int) :
    (buildTeamBudgets employees expenses employeeMap year quarter).Perm
      ((seenTeams (teamMaps employees expenses employeeMap year quarter)).map
        (teamRow (teamMaps employees expenses employeeMap year quarter) quarter)) := by
  unfold buildTeamBudgets
  exact List.perm_insertionSort _ _

theorem buildTeamBudgets_teams_perm (employees : List Employee) (expenses : List Expense)
    (employeeMap : String → Option Employee) (year quarter : Int) :
    ((buildTeamBudgets employees expenses employeeMap year quarter).map
        (fun r => r.Team)).Perm
      (seenTeams (teamMaps employees expenses employeeMap year quarter)) := by
  have h := (buildTeamBudgets_perm employees expenses employeeMap year quarter).map
    (fun r => r.Team)
  rw [List.map_map] at h
  have hid : ((fun r : BudgetTeam => r.Team) ∘
      teamRow (teamMaps employees expenses employeeMap year quarter) quarter) = id := by
    funext t
    rfl
  rw [hid, List.map_id] at h
  exact h

theorem buildTeamBudgets_sorted (employees : List Employee) (expenses : List Expense)
    (employeeMap : String → Option Employee) (year quarter : Int) :
    (buildTeamBudgets employees expenses employeeMap year quarter).Sorted
      (fun a b => toLex (a.Department, a.Team) ≤ toLex (b.Department, b.Team)) := by
  haveI : IsTotal BudgetTeam (fun a b => teamLess b a = false) :=
    ⟨fun a b => by
      rw [teamLess_eq_false_iff, teamLess_eq_false_iff]
      exact le_total _ _⟩
  haveI : IsTrans BudgetTeam (fun a b => teamLess b a = false) :=
    ⟨fun a b c => by
      rw [teamLess_eq_false_iff, teamLess_eq_false_iff, teamLess_eq_false_iff]
      exact le_trans⟩
  have h := List.sorted_insertionSort (fun a b : BudgetTeam => teamLess b a = false)
    ((seenTeams (teamMaps employees expenses employeeMap year quarter)).map
      (teamRow (teamMaps employees expenses employeeMap year quarter) quarter))
  unfold buildTeamBudgets
  exact h.imp (fun hab => (teamLess_eq_false_iff _ _).1 hab)

theorem specTeamSpent_of_no_spend (employeeMap : String → Option Employee)
    (expenses : List Expense) (year quarter : Int) (t : String)
    (h : ¬ ∃ x ∈ expenses, specInWindow year quarter x = true ∧
          ∃ a ∈ x.Attendees, specAttendeeTeam employeeMap a = t) :
    specTeamSpent employeeMap expenses year quarter t = 0 := by
  unfold specTeamSpent
  apply List.sum_eq_zero
  intro v hv
  obtain ⟨x, hx, rfl⟩ := List.mem_map.1 hv
  have hx' := List.mem_filter.1 hx
  unfold specExpenseShare
  have hnil : x.Attendees.filter (fun a => specAttendeeTeam employeeMap a = t) = [] := by
    rw [List.filter_eq_nil_iff]
    intro a ha hd
    exact h ⟨x, hx'.1, hx'.2, a, ha, by simpa using hd⟩
  rw [hnil]
  rfl

/-- C12: the team rows carry pairwise distinct team names, the team names are
exactly those of the roster together with those an in-window expense counts an
attendee under, the rows are in strictly ascending (department, team) order, a
row whose team received no in-window spend has spent 0, and a row whose team
has no roster member has headcount 0. -/
theorem C12_team_row_set (employees : List Employee) (expenses : List Expense)
    (employeeMap : String → Option Employee) (year quarter : Int) :
    ((buildTeamBudgets employees expenses employeeMap year quarter).map
      (fun r => r.Team)).Nodup ∧
    (∀ t, t ∈ (buildTeamBudgets employees expenses employeeMap year quarter).map
        (fun r => r.Team) ↔
      (∃ e ∈ employees, e.Team = t) ∨
        ∃ x ∈ expenses, specInWindow year quarter x = true ∧
          ∃ a ∈ x.Attendees, specAttendeeTeam employeeMap a = t) ∧
    (buildTeamBudgets employees expenses employeeMap year quarter).Sorted
      (fun a b => a.Department < b.Department ∨
        (a.Department = b.Department ∧ a.Team < b.Team)) ∧
    (∀ row ∈ buildTeamBudgets employees expenses employeeMap year quarter,
      (¬ ∃ x ∈ expenses, specInWindow year quarter x = true ∧
          ∃ a ∈ x.Attendees, specAttendeeTeam employeeMap a = row.Team) →
        row.Spent = 0) ∧
    (∀ row ∈ buildTeamBudgets employees expenses employeeMap year quarter,
      (¬ ∃ e ∈ employees, e.Team = row.Team) → row.Headcount = 0) := by
  obtain ⟨hnodup, hmem⟩ := seenTeams_spec employees expenses employeeMap year quarter
  have hperm := buildTeamBudgets_teams_perm employees expenses employeeMap year quarter
  have hnd : ((buildTeamBudgets employees expenses employeeMap year quarter).map
      (fun r => r.Team)).Nodup := hperm.nodup_iff.2 hnodup
  refine ⟨hnd, fun t => by rw [hperm.mem_iff, hmem], ?_, ?_, ?_⟩
  · have hs := buildTeamBudgets_sorted employees expenses employeeMap year quarter
    have hne : (buildTeamBudgets employees expenses employeeMap year quarter).Pairwise
        (fun a b => a.Team ≠ b.Team) := by
      have := hnd
      rwa [List.Nodup, List.pairwise_map] at this
    refine (List.Pairwise.and hs hne).imp ?_
    rintro a b ⟨hle, hab⟩
    rw [Prod.Lex.le_iff] at hle
    rcases hle with h | ⟨h1, h2⟩
    · exact Or.inl h
    · exact Or.inr ⟨h1, lt_of_le_of_ne h2 hab⟩
  · intro row hrow hno
    obtain ⟨team, -, rfl⟩ := (mem_buildTeamBudgets _ _ _ _ _ _).1 hrow
    have hzero : specTeamSpent employeeMap expenses year quarter team = 0 :=
      specTeamSpent_of_no_spend _ _ _ _ _ hno
    simp only [teamRow, teamMaps_spent]
    rw [hzero]
    have := roundCurrency_intCast 0
    simpa using this
  · intro row hrow hno
    obtain ⟨team, -, rfl⟩ := (mem_buildTeamBudgets _ _ _ _ _ _).1 hrow
    simp only [teamRow, teamMaps_headcount]
    rw [List.length_eq_zero, List.filter_eq_nil_iff]
    intro e he hd
    exact hno ⟨e, he, by simpa using hd⟩

theorem C12_team_row_set_witness :
    ({ Team := "Unassigned", Department := "Unassigned", Headcount := 0, Allocated := 0,
       Spent := 30, Remaining := -30 } : BudgetTeam).Headcount = 0 :=
  (C12_team_row_set scenarioRoster [unknownExpense] (mapEmployeesByID scenarioRoster)
    2024 1).2.2.2.2
    { Team := "Unassigned", Department := "Unassigned", Headcount := 0, Allocated := 0,
      Spent := 30, Remaining := -30 } (by decide!) (by decide)

/-! ## Sums grouped by key -/

theorem sum_map_ite_of_not_mem {M : Type} [AddCommMonoid M] (K : List String)
    (k0 : String) (h : k0 ∉ K) (v : M) :
    (K.map (fun k => if k0 = k then v else 0)).sum = 0 := by
  apply List.sum_eq_zero
  intro x hx
  obtain ⟨k, hk, rfl⟩ := List.mem_map.1 hx
  have : ¬ k0 = k := fun e => h (e ▸ hk)
  simp [this]

theorem sum_map_ite_of_mem {M : Type} [AddCommMonoid M] (K : List String)
    (hK : K.Nodup) (k0 : String) (h : k0 ∈ K) (v : M) :
    (K.map (fun k => if k0 = k then v else 0)).sum = v := by
  induction K with
  | nil => cases h
  | cons k rest ih =>
    obtain ⟨hk, hrest⟩ := List.nodup_cons.1 hK
    rw [List.map_cons, List.sum_cons]
    by_cases e : k0 = k
    · subst e
      rw [if_pos rfl, sum_map_ite_of_not_mem rest k0 hk, add_zero]
    · rw [if_neg e, zero_add]
      exact ih hrest ((List.mem_cons.1 h).resolve_left e)

theorem sum_by_key {α M : Type} [AddCommMonoid M] (K : List String) (hK : K.Nodup)
    (f : α → String) (w : α → M) (l : List α) (h : ∀ x ∈ l, f x ∈ K) :
    (K.map (fun k => ((l.filter (fun x => f x = k)).map w).sum)).sum = (l.map w).sum := by
  induction l with
  | nil => simp
  | cons x rest ih =>
    have hstep : (fun k => (((x :: rest).filter (fun y => f y = k)).map w).sum)
        = (fun k => (if f x = k then w x else 0)
            + ((rest.filter (fun y => f y = k)).map w).sum) := by
      funext k
      by_cases e : f x = k
      · simp [List.filter_cons, e]
      · simp [List.filter_cons, e]
    rw [hstep, List.sum_map_add, sum_map_ite_of_mem K hK (f x) (h x (List.mem_cons_self _ _)),
      ih (fun y hy => h y (List.mem_cons_of_mem _ hy)), List.map_cons, List.sum_cons]

theorem sum_swap {κ α M : Type} [AddCommMonoid M] (K : List κ) (g : κ → α → M)
    (F : List α) :
    (K.map (fun k => (F.map (g k)).sum)).sum
      = (F.map (fun e => (K.map (fun k => g k e)).sum)).sum := by
  induction F with
  | nil => simp
  | cons e rest ih =>
    simp only [List.map_cons, List.sum_cons]
    rw [List.sum_map_add, ih]

/-! ## The department of a team row -/

theorem roster_foldl_department (t : String) (employees : List Employee) (st : TeamMaps) :
    (employees.foldl rosterStep st).teamDepartments t
      = match (employees.filter (fun e => e.Team = t)).getLast? with
        | some last => last.Department
        | none => st.teamDepartments t := by
  induction employees using List.reverseRecOn with
  | nil => rfl
  | append_singleton l e ih =>
    rw [List.foldl_append, List.foldl_cons, List.foldl_nil, List.filter_append]
    by_cases h : e.Team = t
    · have hf : [e].filter (fun e => decide (e.Team = t)) = [e] := by simp [h]
      rw [hf, List.getLast?_append]
      simp [rosterStep, h]
    · have hf : [e].filter (fun e => decide (e.Team = t)) = [] := by simp [h]
      have h' : ¬ t = e.Team := fun x => h x.symm
      rw [hf, List.append_nil, ← ih]
      simp [rosterStep, h']

theorem attendeeStep_department (employeeMap : String → Option Employee) (c : ℚ)
    (t : String) (st : TeamMaps) (a : String) (h : st.teamDepartments t ≠ "") :
    (attendeeStep employeeMap c st a).teamDepartments t
      = if t = "Unassigned" ∧ (employeeMap a).isNone = true then "Unassigned"
        else st.teamDepartments t := by
  unfold attendeeStep
  cases hmap : employeeMap a with
  | none => simp
  | some employee =>
    simp only [Option.isNone_some, Bool.false_eq_true, and_false, if_false]
    by_cases hd : st.teamDepartments employee.Team = ""
    · have ht : ¬ t = employee.Team := fun e => h (e ▸ hd)
      simp [hd, ht]
    · simp [hd]

theorem attendees_foldl_department (employeeMap : String → Option Employee) (c : ℚ)
    (t : String) (as : List String) :
    ∀ st : TeamMaps, st.teamDepartments t ≠ "" →
      (as.foldl (attendeeStep employeeMap c) st).teamDepartments t
        = if t = "Unassigned" ∧ as.any (fun a => (employeeMap a).isNone) = true
          then "Unassigned" else st.teamDepartments t := by
  induction as with
  | nil => intro st _; simp
  | cons a rest ih =>
    intro st h
    have hstep := attendeeStep_department employeeMap c t st a h
    have hne : (attendeeStep employeeMap c st a).teamDepartments t ≠ "" := by
      rw [hstep]
      split_ifs
      · decide
      · exact h
    rw [List.foldl_cons, ih _ hne, hstep]
    by_cases ht : t = "Unassigned"
    · by_cases ha : (employeeMap a).isNone = true
      · simp [ht, ha]
      · simp [ht, ha]
    · simp [ht]

theorem expenseStep_department (employeeMap : String → Option Employee)
    (year quarter : Int) (t : String) (st : TeamMaps) (expense : Expense)
    (h : st.teamDepartments t ≠ "") :
    (expenseStep employeeMap year quarter st expense).teamDepartments t
      = if t = "Unassigned" ∧ (specInWindow year quarter expense &&
            expense.Attendees.any (fun a => (employeeMap a).isNone)) = true
        then "Unassigned" else st.teamDepartments t := by
  unfold expenseStep specInWindow
  cases hdate : parseDate expense.Date with
  | none => simp
  | some date =>
    simp only
    by_cases h1 : (date.year : Int) = year
    · by_cases h2 : (quarterFromDate date : Int) > quarter
      · have h2' : ¬ (quarterFromDate date : Int) ≤ quarter := by omega
        simp [h1, h2, h2']
      · have h2' : (quarterFromDate date : Int) ≤ quarter := by omega
        by_cases h3 : expense.Attendees = []
        · simp [h1, h2, h3]
        · have h3' : ¬ expense.Attendees.length = 0 := by
            simpa [List.length_eq_zero] using h3
          have h4 : expense.Attendees.isEmpty = false := by
            cases hA : expense.Attendees with
            | nil => exact absurd hA h3
            | cons a as => rfl
          simp only [h1, h2, h3', h2', ne_eq, not_true_eq_false, if_false,
            decide_True, Bool.true_and, h4, Bool.not_false]
          exact attendees_foldl_department employeeMap _ t expense.Attendees st h
    · simp [h1]

theorem expenses_foldl_department (employeeMap : String → Option Employee)
    (year quarter : Int) (t : String) (expenses : List Expense) :
    ∀ st : TeamMaps, st.teamDepartments t ≠ "" →
      (expenses.foldl (expenseStep employeeMap year quarter) st).teamDepartments t
        = if t = "Unassigned" ∧ specHasUnknown employeeMap year quarter expenses = true
          then "Unassigned" else st.teamDepartments t := by
  induction expenses with
  | nil => intro st _; simp [specHasUnknown]
  | cons e rest ih =>
    intro st h
    have hstep := expenseStep_department employeeMap year quarter t st e h
    have hne : (expenseStep employeeMap year quarter st e).teamDepartments t ≠ "" := by
      rw [hstep]
      split_ifs
      · decide
      · exact h
    rw [List.foldl_cons, ih _ hne, hstep]
    unfold specHasUnknown
    by_cases ht : t = "Unassigned"
    · by_cases ha : (specInWindow year quarter e &&
          e.Attendees.any (fun a => (employeeMap a).isNone)) = true
      · simp only [ht, true_and, List.any_cons, ha, Bool.true_or, if_true]
        split_ifs <;> rfl
      · simp only [Bool.not_eq_true] at ha
        simp only [ht, true_and, List.any_cons, ha, Bool.false_or, Bool.false_eq_true,
          if_false]
    · simp [ht]

/-- C20: when every roster employee has a non-empty department, a team row
with at least one roster member reports the department of the last roster
employee on that team in roster order, except that the row of team
"Unassigned" reports department "Unassigned" whenever an in-window expense has
an attendee id absent from the lookup. -/
theorem C20_row_department (employees : List Employee) (expenses : List Expense)
    (employeeMap : String → Option Employee) (year quarter : Int)
    (hdept : ∀ e ∈ employees, e.Department ≠ "") (row : BudgetTeam)
    (hrow : row ∈ buildTeamBudgets employees expenses employeeMap year quarter)
    (hmember : ∃ e ∈ employees, e.Team = row.Team) :
    ∃ last, (employees.filter (fun e => e.Team = row.Team)).getLast? = some last ∧
      row.Department
        = if row.Team = "Unassigned" ∧
              specHasUnknown employeeMap year quarter expenses = true
          then "Unassigned" else last.Department := by
  obtain ⟨team, -, rfl⟩ := (mem_buildTeamBudgets _ _ _ _ _ _).1 hrow
  obtain ⟨e, he, het⟩ := hmember
  have het' : e.Team = team := het
  have hne : employees.filter (fun e => e.Team = team) ≠ [] := by
    intro hnil
    have : e ∈ employees.filter (fun e => e.Team = team) :=
      List.mem_filter.2 ⟨he, by simpa using het'⟩
    rw [hnil] at this
    cases this
  obtain ⟨last, hlast⟩ : ∃ last,
      (employees.filter (fun e => e.Team = team)).getLast? = some last := by
    cases hg : (employees.filter (fun e => e.Team = team)).getLast? with
    | none => exact absurd (List.getLast?_eq_none_iff.1 hg) hne
    | some last => exact ⟨last, rfl⟩
  have hlastmem : last ∈ employees :=
    (List.mem_filter.1 (List.mem_of_getLast?_eq_some hlast)).1
  refine ⟨last, hlast, ?_⟩
  have hroster := roster_foldl_department team employees
    { teamHeadcount := GoMap.empty 0, teamDepartments := fun _ => "",
      teamSpent := GoMap.empty 0 }
  rw [hlast] at hroster
  simp only at hroster
  have hstart : (List.foldl rosterStep
      { teamHeadcount := GoMap.empty 0, teamDepartments := fun _ => "",
        teamSpent := GoMap.empty 0 } employees).teamDepartments team ≠ "" := by
    rw [hroster]
    exact hdept last hlastmem
  have hfold := expenses_foldl_department employeeMap year quarter team expenses _ hstart
  rw [hroster] at hfold
  exact hfold

theorem C20_row_department_witness :
    ∃ last, (rosterUnassigned.filter (fun e => e.Team = "Unassigned")).getLast? = some last ∧
      "Unassigned" = if "Unassigned" = "Unassigned" ∧
              specHasUnknown (mapEmployeesByID rosterUnassigned) 2024 1 [unknownExpense]
                = true
          then "Unassigned" else last.Department :=
  C20_row_department rosterUnassigned [unknownExpense] (mapEmployeesByID rosterUnassigned)
    2024 1 (by decide)
    { Team := "Unassigned", Department := "Unassigned", Headcount := 1, Allocated := 60,
      Spent := 30, Remaining := 30 } (by decide!) (by decide)

/-! ## Slugs -/

theorem slugify_eq (value : String) :
    slugify value
      = if specSlugRemainder value = [] then "employee" else ⟨specSlugRemainder value⟩ :=
  rfl

theorem trimHyphens_spec (l : List Char)
    (h : (l.dropWhile (fun c => decide (c = '-'))).rdropWhile
      (fun c => decide (c = '-')) ≠ []) :
    (∀ c ∈ (l.dropWhile (fun c => decide (c = '-'))).rdropWhile
      (fun c => decide (c = '-')), c ∈ l) ∧
    ((l.dropWhile (fun c => decide (c = '-'))).rdropWhile
      (fun c => decide (c = '-'))).head h ≠ '-' ∧
    ((l.dropWhile (fun c => decide (c = '-'))).rdropWhile
      (fun c => decide (c = '-'))).getLast h ≠ '-' := by
  have hpre := List.rdropWhile_prefix (fun c => decide (c = '-'))
    (l.dropWhile (fun c => decide (c = '-')))
  refine ⟨?_, ?_, ?_⟩
  · intro c hc
    exact (List.dropWhile_sublist _).subset (hpre.subset hc)
  · rw [hpre.head h]
    have := List.head_dropWhile_not (fun c => decide (c = '-')) l (hpre.ne_nil h)
    simpa using this
  · have := List.rdropWhile_last_not (fun c => decide (c = '-'))
      (l.dropWhile (fun c => decide (c = '-'))) h
    simpa using this

theorem specSlugRemainder_spec (value : String) (h : specSlugRemainder value ≠ []) :
    (∀ c ∈ specSlugRemainder value, isSlugChar c = true) ∧
    (specSlugRemainder value).head h ≠ '-' ∧
    (specSlugRemainder value).getLast h ≠ '-' := by
  obtain ⟨h1, h2, h3⟩ := trimHyphens_spec _ h
  exact ⟨fun c hc => (List.mem_filter.1 (h1 c hc)).2, h2, h3⟩

/-- C17 as stated fails in its last part: `slugify "Employee"` returns
"employee" although the text that remains after cleaning, "employee", is not
empty. -/
theorem C17_employee_without_fallback :
    slugify "Employee" = "employee" ∧ specSlugRemainder "Employee" ≠ [] ∧
    ¬ (∀ value : String, slugify value = "employee" ↔ specSlugRemainder value = []) := by
  have h1 : slugify "Employee" = "employee" := by decide
  have h2 : specSlugRemainder "Employee" ≠ [] := by decide
  exact ⟨h1, h2, fun hall => h2 ((hall "Employee").1 h1)⟩

/-- C17, amended: `slugify` returns a non-empty string of characters in
`[a-z0-9-]` that neither starts nor ends with a hyphen; it returns "employee"
when nothing remains after cleaning and the remaining text otherwise, so the
result is "employee" exactly when nothing remains or the remaining text is
itself "employee". -/
theorem C17_slugify_shape (value : String) :
    slugify value ≠ "" ∧
    (∀ c ∈ (slugify value).data, isSlugChar c = true) ∧
    (∀ h : (slugify value).data ≠ [],
      (slugify value).data.head h ≠ '-' ∧ (slugify value).data.getLast h ≠ '-') ∧
    (specSlugRemainder value = [] → slugify value = "employee") ∧
    (specSlugRemainder value ≠ [] → slugify value = ⟨specSlugRemainder value⟩) ∧
    (slugify value = "employee" ↔
      specSlugRemainder value = [] ∨ specSlugRemainder value = "employee".data) := by
  have hshape : ∀ (s : String) (l : List Char), s = ⟨l⟩ → l ≠ [] →
      (∀ c ∈ l, isSlugChar c = true) →
      (∀ h : l ≠ [], l.head h ≠ '-' ∧ l.getLast h ≠ '-') →
      s ≠ "" ∧ (∀ c ∈ s.data, isSlugChar c = true) ∧
        (∀ h : s.data ≠ [], s.data.head h ≠ '-' ∧ s.data.getLast h ≠ '-') := by
    rintro s l rfl hl hc hh
    exact ⟨fun e => hl (congrArg String.data e), hc, hh⟩
  by_cases hr : specSlugRemainder value = []
  · have hs : slugify value = "employee" := by rw [slugify_eq, if_pos hr]
    obtain ⟨a1, a2, a3⟩ := hshape (slugify value) "employee".data hs (by decide)
      (by decide)
      (fun _ => ⟨(by decide : ('e' : Char) ≠ '-'), (by decide : ('e' : Char) ≠ '-')⟩)
    exact ⟨a1, a2, a3, fun _ => hs, fun h => absurd hr h,
      fun _ => Or.inl hr, fun _ => hs⟩
  · have hs : slugify value = ⟨specSlugRemainder value⟩ := by rw [slugify_eq, if_neg hr]
    obtain ⟨h1, h2, h3⟩ := specSlugRemainder_spec value hr
    obtain ⟨a1, a2, a3⟩ := hshape (slugify value) (specSlugRemainder value) hs hr h1
      (fun _ => ⟨h2, h3⟩)
    refine ⟨a1, a2, a3, fun h => absurd h hr, fun _ => hs, ?_, ?_⟩
    · intro h
      rw [hs] at h
      exact Or.inr (congrArg String.data h)
    · rintro (h | h)
      · exact absurd h hr
      · rw [hs, h]

theorem C17_slugify_shape_witness :
    slugify "  Ann Lee_Core!-" = ⟨specSlugRemainder "  Ann Lee_Core!-"⟩ :=
  (C17_slugify_shape "  Ann Lee_Core!-").2.2.2.2.1 (by decide)

/-! ## Query parameters -/

theorem atoi_eq_some_iff (s : String) (v : Int) :
    atoi s = some v ↔
      decimalValue? s = some v ∧ -(2 ^ 63 : Int) ≤ v ∧ v < (2 ^ 63 : Int) := by
  unfold atoi
  cases h : decimalValue? s with
  | none => simp
  | some w =>
    by_cases hr : -(2 ^ 63 : Int) ≤ w ∧ w < (2 ^ 63 : Int)
    · simp only [if_pos hr, Option.some.injEq]
      constructor
      · rintro rfl; exact ⟨rfl, hr⟩
      · rintro ⟨h1, -⟩; exact h1
    · simp only [if_neg hr, Option.some.injEq]
      constructor
      · intro h0; cases h0
      · rintro ⟨h1, h2⟩
        exact absurd (h1 ▸ h2) hr

theorem yearOfParam_ok_iff (now : Date) (yearParam : String) (year : Int) :
    yearOfParam now yearParam = .ok year ↔
      (yearParam = "" ∧ year = (now.year : Int)) ∨
      (yearParam ≠ "" ∧ decimalValue? yearParam = some year ∧ 0 < year ∧
        year < (2 ^ 63 : Int)) := by
  unfold yearOfParam
  by_cases hy : yearParam = ""
  · simp [hy, eq_comm]
  · simp only [ne_eq, hy, not_false_eq_true, if_true, false_and, false_or, true_and]
    cases ha : atoi yearParam with
    | none =>
      constructor
      · intro h0; cases h0
      · rintro ⟨h1, h2, h3⟩
        have := (atoi_eq_some_iff yearParam year).2 ⟨h1, by omega, h3⟩
        rw [ha] at this
        cases this
    | some parsed =>
      obtain ⟨h1, h2, h3⟩ := (atoi_eq_some_iff yearParam parsed).1 ha
      by_cases hp : parsed ≤ 0
      · simp only [if_pos hp]
        constructor
        · intro h0; cases h0
        · rintro ⟨h4, h5, -⟩
          rw [h1] at h4
          cases h4
          omega
      · simp only [if_neg hp, Except.ok.injEq]
        constructor
        · rintro rfl
          exact ⟨h1, by omega, h3⟩
        · rintro ⟨h4, -, -⟩
          rw [h1] at h4
          exact Option.some.inj h4

theorem quarterOfParam_ok_iff (now : Date) (quarterParam : String) (quarter : Int) :
    quarterOfParam now quarterParam = .ok quarter ↔
      (quarterParam = "" ∧ quarter = (quarterFromDate now : Int)) ∨
      (quarterParam ≠ "" ∧ decimalValue? quarterParam = some quarter ∧ 1 ≤ quarter ∧
        quarter ≤ 4) := by
  unfold quarterOfParam
  by_cases hy : quarterParam = ""
  · simp [hy, eq_comm]
  · simp only [ne_eq, hy, not_false_eq_true, if_true, false_and, false_or, true_and]
    cases ha : atoi quarterParam with
    | none =>
      constructor
      · intro h0; cases h0
      · rintro ⟨h1, h2, h3⟩
        have := (atoi_eq_some_iff quarterParam quarter).2 ⟨h1, by omega, by omega⟩
        rw [ha] at this
        cases this
    | some parsed =>
      obtain ⟨h1, h2, h3⟩ := (atoi_eq_some_iff quarterParam parsed).1 ha
      by_cases hp : parsed < 1 ∨ parsed > 4
      · simp only [if_pos hp]
        constructor
        · intro h0; cases h0
        · rintro ⟨h4, h5, h6⟩
          rw [h1] at h4
          cases h4
          omega
      · simp only [if_neg hp, Except.ok.injEq]
        constructor
        · rintro rfl
          exact ⟨h1, by omega, by omega⟩
        · rintro ⟨h4, -, -⟩
          rw [h1] at h4
          exact Option.some.inj h4

theorem parseYearQuarter_ok_iff (now : Date) (yearParam quarterParam : String)
    (year quarter : Int) :
    parseYearQuarter now yearParam quarterParam = .ok (year, quarter) ↔
      yearOfParam now yearParam = .ok year ∧
        quarterOfParam now quarterParam = .ok quarter := by
  unfold parseYearQuarter
  cases yearOfParam now yearParam with
  | error e => simp
  | ok y =>
    cases quarterOfParam now quarterParam with
    | error e => simp
    | ok q => simp

/-- C18 as stated fails: the year parameter "9223372036854775808" is a decimal
integer greater than 0, yet `parseYearQuarter` fails on it, because the value
does not fit Go's 64-bit `int`. -/
theorem C18_year_out_of_int_range :
    decimalValue? "9223372036854775808" = some 9223372036854775808 ∧
    parseYearQuarter { year := 2024, month := 5, day := 1 } "9223372036854775808" ""
      = .error "invalid year" := by
  constructor
  · decide
  · rfl

/-- C18, amended: `parseYearQuarter` succeeds exactly when the year parameter is
empty or a decimal integer in 1..2^63-1 and the quarter parameter is empty or
a decimal integer in 1..4 (and fails otherwise); on success it returns the
supplied values, with the current year and quarter for an empty parameter. -/
theorem C18_parseYearQuarter_spec (now : Date) (yearParam quarterParam : String) :
    ((∃ msg, parseYearQuarter now yearParam quarterParam = .error msg) ↔
      (yearParam ≠ "" ∧ ¬ ∃ v : Int, decimalValue? yearParam = some v ∧ 0 < v ∧
        v < (2 ^ 63 : Int)) ∨
      (quarterParam ≠ "" ∧ ¬ ∃ v : Int, decimalValue? quarterParam = some v ∧ 1 ≤ v ∧
        v ≤ 4)) ∧
    (∀ year quarter : Int,
      parseYearQuarter now yearParam quarterParam = .ok (year, quarter) ↔
        ((yearParam = "" ∧ year = (now.year : Int)) ∨
          (yearParam ≠ "" ∧ decimalValue? yearParam = some year ∧ 0 < year ∧
            year < (2 ^ 63 : Int))) ∧
        ((quarterParam = "" ∧ quarter = (quarterFromDate now : Int)) ∨
          (quarterParam ≠ "" ∧ decimalValue? quarterParam = some quarter ∧
            1 ≤ quarter ∧ quarter ≤ 4))) := by
  have hok : ∀ year quarter : Int,
      parseYearQuarter now yearParam quarterParam = .ok (year, quarter) ↔
        ((yearParam = "" ∧ year = (now.year : Int)) ∨
          (yearParam ≠ "" ∧ decimalValue? yearParam = some year ∧ 0 < year ∧
            year < (2 ^ 63 : Int))) ∧
        ((quarterParam = "" ∧ quarter = (quarterFromDate now : Int)) ∨
          (quarterParam ≠ "" ∧ decimalValue? quarterParam = some quarter ∧
            1 ≤ quarter ∧ quarter ≤ 4)) := by
    intro year quarter
    rw [parseYearQuarter_ok_iff, yearOfParam_ok_iff, quarterOfParam_ok_iff]
  refine ⟨?_, hok⟩
  constructor
  · rintro ⟨msg, hmsg⟩
    by_contra hcon
    rw [not_or] at hcon
    obtain ⟨hy, hq⟩ := hcon
    have hyear : ∃ year : Int, (yearParam = "" ∧ year = (now.year : Int)) ∨
        (yearParam ≠ "" ∧ decimalValue? yearParam = some year ∧ 0 < year ∧
          year < (2 ^ 63 : Int)) := by
      by_cases h : yearParam = ""
      · exact ⟨_, Or.inl ⟨h, rfl⟩⟩
      · have := not_not.1 (fun hn => hy ⟨h, hn⟩)
        obtain ⟨v, hv⟩ := this
        exact ⟨v, Or.inr ⟨h, hv⟩⟩
    have hquarter : ∃ quarter : Int,
        (quarterParam = "" ∧ quarter = (quarterFromDate now : Int)) ∨
        (quarterParam ≠ "" ∧ decimalValue? quarterParam = some quarter ∧
          1 ≤ quarter ∧ quarter ≤ 4) := by
      by_cases h : quarterParam = ""
      · exact ⟨_, Or.inl ⟨h, rfl⟩⟩
      · have := not_not.1 (fun hn => hq ⟨h, hn⟩)
        obtain ⟨v, hv⟩ := this
        exact ⟨v, Or.inr ⟨h, hv⟩⟩
    obtain ⟨year, hyr⟩ := hyear
    obtain ⟨quarter, hqr⟩ := hquarter
    have := (hok year quarter).2 ⟨hyr, hqr⟩
    rw [hmsg] at this
    cases this
  · intro h
    cases hres : parseYearQuarter now yearParam quarterParam with
    | error msg => exact ⟨msg, rfl⟩
    | ok r =>
      exfalso
      obtain ⟨year, quarter⟩ := r
      obtain ⟨hyr, hqr⟩ := (hok year quarter).1 hres
      rcases h with ⟨hne, hno⟩ | ⟨hne, hno⟩
      · rcases hyr with ⟨he, -⟩ | ⟨-, hv⟩
        · exact hne he
        · exact hno ⟨year, hv⟩
      · rcases hqr with ⟨he, -⟩ | ⟨-, hv⟩
        · exact hne he
        · exact hno ⟨quarter, hv⟩

theorem C18_parseYearQuarter_spec_witness :
    parseYearQuarter { year := 2024, month := 5, day := 1 } "2023" "" = .ok (2023, 2) :=
  ((C18_parseYearQuarter_spec { year := 2024, month := 5, day := 1 } "2023" "").2
    2023 2).2 ⟨Or.inr ⟨by decide, by decide, by decide, by decide⟩,
      Or.inl ⟨rfl, by decide⟩⟩

/-! ## Creating an expense -/

theorem handleCreateExpense_of_valid (env : Env) (st : StorageState) (req : CreateRequest)
    (amount : ℚ) (hp : env.parseFloat (trimSpace req.amount) = some amount)
    (hpos : 0 < amount) (hne : submittedAttendees req ≠ [])
    (hdate : (parseDate (trimSpace req.date)).isNone = false)
    (hload : env.loadEmployeesFails = false)
    (hknown : ∀ a ∈ submittedAttendees req,
      (mapEmployeesByID (LoadEmployees st.employees) a).isNone = false) :
    handleCreateExpense env st req
      = match req.receipt with
        | some name =>
          if env.saveUploadFails then (.failure 500 "failed to save receipt", st)
          else
            storeExpense env { st with uploads := st.uploads ++ [uploadFilename env name] }
              (mapEmployeesByID (LoadEmployees st.employees))
              (newExpense env req amount ("/uploads/" ++ uploadFilename env name))
        | none =>
          if trimSpace req.receiptUrl = "" then
            (.failure 400 "receipt upload or receipt URL is required", st)
          else storeExpense env st (mapEmployeesByID (LoadEmployees st.employees))
            (newExpense env req amount (trimSpace req.receiptUrl)) := by
  have hlen : ¬ (submittedAttendees req).length = 0 := by
    simpa [List.length_eq_zero] using hne
  have hfind : (submittedAttendees req).find?
      (fun a => (mapEmployeesByID (LoadEmployees st.employees) a).isNone) = none := by
    rw [List.find?_eq_none]
    intro a ha
    simp [hknown a ha]
  unfold handleCreateExpense
  simp only [hp, not_le.2 hpos, hlen, hdate, hload, hfind, if_false, Bool.false_eq_true]

theorem storeExpense_of_ok (env : Env) (st : StorageState)
    (employeeMap : String → Option Employee) (expense : Expense)
    (h1 : env.loadExpensesFails = false) (h2 : env.saveExpensesFails = false)
    (hne : expense.Attendees ≠ []) :
    ∃ view, buildExpenseResponse expense employeeMap = some view ∧
      storeExpense env st employeeMap expense
        = (.created view, { st with expenses := st.expenses ++ [expense] }) := by
  have hlen : expense.Attendees.length ≠ 0 := by
    simpa [List.length_eq_zero] using hne
  refine ⟨_, buildExpenseResponse_of_attendees expense employeeMap hlen, ?_⟩
  unfold storeExpense
  simp only [h1, h2, if_false, Bool.false_eq_true,
    buildExpenseResponse_of_attendees expense employeeMap hlen]

/-- C15: when the roster loads, a create request with an attendee id absent
from the roster is answered 400 and leaves the persisted state unchanged,
although `buildExpenseResponse` resolves such an id to the
"Unknown"/"Unassigned" placeholder; a non-positive amount and an empty
attendee list are answered 400 with no state change as well. -/
theorem C15_create_rejects_invalid (env : Env) (st : StorageState) (req : CreateRequest) :
    (env.loadEmployeesFails = false →
      (∃ a ∈ submittedAttendees req,
        mapEmployeesByID (LoadEmployees st.employees) a = none) →
      ∃ msg, handleCreateExpense env st req = (.failure 400 msg, st)) ∧
    (∀ amount : ℚ, env.parseFloat (trimSpace req.amount) = some amount → amount ≤ 0 →
      handleCreateExpense env st req
        = (.failure 400 "amount must be greater than 0", st)) ∧
    (submittedAttendees req = [] →
      ∃ msg, handleCreateExpense env st req = (.failure 400 msg, st)) ∧
    (∀ (employeeMap : String → Option Employee) (expense : Expense) (a : String),
      a ∈ expense.Attendees → employeeMap a = none →
      ∃ view, buildExpenseResponse expense employeeMap = some view ∧
        ({ ID := a, Name := "Unknown", Team := "Unassigned",
           Department := "Unassigned" } : Employee) ∈ view.Attendees) := by
  refine ⟨?_, ?_, ?_, ?_⟩
  · rintro hload ⟨a, ha, hnone⟩
    unfold handleCreateExpense
    cases hp : env.parseFloat (trimSpace req.amount) with
    | none => exact ⟨_, rfl⟩
    | some amount =>
      simp only
      by_cases h1 : amount ≤ 0
      · rw [if_pos h1]; exact ⟨_, rfl⟩
      · rw [if_neg h1]
        by_cases h2 : (submittedAttendees req).length = 0
        · rw [if_pos h2]; exact ⟨_, rfl⟩
        · rw [if_neg h2]
          by_cases h3 : (parseDate (trimSpace req.date)).isNone = true
          · rw [if_pos h3]; exact ⟨_, rfl⟩
          · rw [if_neg h3, hload]
            simp only [Bool.false_eq_true, if_false]
            cases hfind : (submittedAttendees req).find?
                (fun a => (mapEmployeesByID (LoadEmployees st.employees) a).isNone) with
            | some attendee => exact ⟨_, rfl⟩
            | none =>
              exfalso
              rw [List.find?_eq_none] at hfind
              have := hfind a ha
              simp [hnone] at this
  · intro amount hp hle
    unfold handleCreateExpense
    simp only [hp, if_pos hle]
  · intro hnil
    unfold handleCreateExpense
    cases hp : env.parseFloat (trimSpace req.amount) with
    | none => exact ⟨_, rfl⟩
    | some amount =>
      simp only
      by_cases h1 : amount ≤ 0
      · rw [if_pos h1]; exact ⟨_, rfl⟩
      · rw [if_neg h1, if_pos (by rw [hnil]; rfl)]; exact ⟨_, rfl⟩
  · intro employeeMap expense a ha hnone
    have hlen : expense.Attendees.length ≠ 0 := by
      intro h0
      rw [List.length_eq_zero.1 h0] at ha
      cases ha
    refine ⟨_, buildExpenseResponse_of_attendees expense employeeMap hlen, ?_⟩
    simp only [List.mem_map]
    exact ⟨a, ha, by simp [resolveAttendee, hnone]⟩

theorem C15_create_rejects_invalid_witness :
    ∃ msg, handleCreateExpense sampleEnv sampleState
        { bothReceiptsRequest with attendeeIdsBracket := ["a", "x"] }
      = (.failure 400 msg, sampleState) :=
  (C15_create_rejects_invalid sampleEnv sampleState
    { bothReceiptsRequest with attendeeIdsBracket := ["a", "x"] }).1 rfl
    ⟨"x", by decide, by decide⟩

/-- C16 as stated fails: a valid request that supplies both an uploaded
receipt and a receipt URL is accepted; the expense is stored with the URL of
the uploaded file and the submitted URL is dropped. -/
theorem C16_both_receipts_accepted :
    handleCreateExpense sampleEnv sampleState bothReceiptsRequest
      = (.created
          { ID := "exp_2", Date := "2024-02-01", Description := "lunch", Amount := 100,
            CostPerPerson := 100,
            Attendees := [{ ID := "a", Name := "Ann", Team := "Eng", Department := "R&D" }],
            ReceiptURL := "/uploads/1-my-receipt.pdf" },
         { sampleState with
           uploads := ["1-my-receipt.pdf"]
           expenses := [{ ID := "exp_2", Date := "2024-02-01", Description := "lunch",
                          Amount := 100, Attendees := ["a"],
                          ReceiptURL := "/uploads/1-my-receipt.pdf" }] }) := by
  decide!

/-- C16, amended: an otherwise valid create request is rejected with status
400 when it has neither an uploaded receipt nor a receipt URL; with an
uploaded receipt it is accepted whether or not a URL is given as well, and the
stored receipt URL is that of the uploaded file; with a URL only it is
accepted and stored with that URL. -/
theorem C16_receipt_required (env : Env) (st : StorageState) (req : CreateRequest)
    (amount : ℚ) (hp : env.parseFloat (trimSpace req.amount) = some amount)
    (hpos : 0 < amount) (hne : submittedAttendees req ≠ [])
    (hdate : (parseDate (trimSpace req.date)).isNone = false)
    (hknown : ∀ a ∈ submittedAttendees req,
      (mapEmployeesByID (LoadEmployees st.employees) a).isNone = false)
    (hload : env.loadEmployeesFails = false) (hupload : env.saveUploadFails = false)
    (hexp : env.loadExpensesFails = false) (hsave : env.saveExpensesFails = false) :
    (req.receipt = none → trimSpace req.receiptUrl = "" →
      handleCreateExpense env st req
        = (.failure 400 "receipt upload or receipt URL is required", st)) ∧
    (∀ name, req.receipt = some name →
      ∃ view, view.ReceiptURL = "/uploads/" ++ uploadFilename env name ∧
        handleCreateExpense env st req
          = (.created view,
             { st with
               uploads := st.uploads ++ [uploadFilename env name]
               expenses := st.expenses ++
                 [newExpense env req amount ("/uploads/" ++ uploadFilename env name)] })) ∧
    (req.receipt = none → trimSpace req.receiptUrl ≠ "" →
      ∃ view, view.ReceiptURL = trimSpace req.receiptUrl ∧
        handleCreateExpense env st req
          = (.created view,
             { st with
               expenses := st.expenses ++
                 [newExpense env req amount (trimSpace req.receiptUrl)] })) := by
  have hvalid := handleCreateExpense_of_valid env st req amount hp hpos hne hdate hload hknown
  refine ⟨?_, ?_, ?_⟩
  · intro hr hu
    rw [hvalid, hr]
    simp only [hu, if_true]
  · intro name hr
    obtain ⟨view, hview, hstore⟩ := storeExpense_of_ok env
      { st with uploads := st.uploads ++ [uploadFilename env name] }
      (mapEmployeesByID (LoadEmployees st.employees))
      (newExpense env req amount ("/uploads/" ++ uploadFilename env name)) hexp hsave hne
    refine ⟨view, ?_, ?_⟩
    · rw [buildExpenseResponse_of_attendees _ _
        (by simpa [List.length_eq_zero, newExpense] using hne)] at hview
      cases hview
      rfl
    · rw [hvalid, hr]
      simp only [hupload, Bool.false_eq_true, if_false]
      exact hstore
  · intro hr hu
    obtain ⟨view, hview, hstore⟩ := storeExpense_of_ok env st
      (mapEmployeesByID (LoadEmployees st.employees))
      (newExpense env req amount (trimSpace req.receiptUrl)) hexp hsave hne
    refine ⟨view, ?_, ?_⟩
    · rw [buildExpenseResponse_of_attendees _ _
        (by simpa [List.length_eq_zero, newExpense] using hne)] at hview
      cases hview
      rfl
    · rw [hvalid, hr]
      simp only [hu, if_false]
      exact hstore

theorem C16_receipt_required_witness :
    handleCreateExpense sampleEnv sampleState
        { bothReceiptsRequest with receipt := none, receiptUrl := "  " }
      = (.failure 400 "receipt upload or receipt URL is required", sampleState) :=
  (C16_receipt_required sampleEnv sampleState
    { bothReceiptsRequest with receipt := none, receiptUrl := "  " } 100
    (by decide) (by decide!) (by decide) (by decide) (by decide) rfl rfl rfl rfl).1
    rfl (by decide)

/-! # Theorems on the `float64` arithmetic -/

/-! ## Rounding in `float64` -/

theorem mathRound_half (k : ℤ) :
    mathRound ((k : ℚ) + 1 / 2) = if 0 ≤ k then k + 1 else k := by
  unfold mathRound
  by_cases h0 : 0 ≤ k
  · have h0' : (0 : ℚ) ≤ (k : ℚ) + 1 / 2 := by
      have : (0 : ℚ) ≤ (k : ℚ) := by exact_mod_cast h0
      linarith
    have e : (k : ℚ) + 1 / 2 + 1 / 2 = ((k + 1 : ℤ) : ℚ) := by push_cast; ring
    rw [if_pos h0', if_pos h0, e, Int.floor_intCast]
  · have hk1 : k ≤ -1 := by omega
    have h0' : ¬ (0 : ℚ) ≤ (k : ℚ) + 1 / 2 := by
      have : (k : ℚ) ≤ -1 := by exact_mod_cast hk1
      intro h
      linarith
    have e : -((k : ℚ) + 1 / 2) + 1 / 2 = ((-k : ℤ) : ℚ) := by push_cast; ring
    rw [if_neg h0', if_neg h0, e, Int.floor_intCast]
    simp

theorem roundCurrency64_of_product (x : Float64) (p : ℚ)
    (hp : x.mul (.finite 100) = .finite p) :
    roundCurrency64 x = round64 ((mathRound p : ℚ) / 100) := by
  unfold roundCurrency64
  rw [hp]
  simp only [mathRound64, Float64.div]
  norm_num

/-- C13 as stated fails on `float64`: for the double nearest to 0.015 the
product with 100 rounds to exactly 1.5, so `roundCurrency` returns the double
nearest to 0.02, which is farther than 0.005 from its argument; and for 1e308
the product overflows and the result is +Inf. -/
theorem C13_float_result_beyond_half_cent :
    round64 (15 / 1000) = .finite (1080863910568919 / 72057594037927936) ∧
    (round64 (15 / 1000)).mul (.finite 100) = .finite (3 / 2) ∧
    roundCurrency64 (round64 (15 / 1000))
      = .finite (5764607523034235 / 288230376151711744) ∧
    |(5764607523034235 / 288230376151711744 : ℚ)
        - 1080863910568919 / 72057594037927936| > 5 / 1000 ∧
    roundCurrency64 (round64 (10 ^ 308)) = .inf false := by
  refine ⟨by decide!, by decide!, by decide!, ?_, by decide!⟩
  norm_num [abs_of_pos]

/-- C13, amended: on a `float64` value whose product p with 100 is finite,
`roundCurrency` returns the double nearest to k/100, where the integer k is
within 0.5 of p and, when p lies exactly halfway between two integers, is the
one of larger absolute value (never banker's rounding); so 0.125 gives the
double 0.13 and -0.125 the double -0.13. -/
theorem C13_roundCurrency64_half_away (x : Float64) (p : ℚ)
    (hp : x.mul (.finite 100) = .finite p) :
    roundCurrency64 x = round64 ((mathRound p : ℚ) / 100) ∧
    |(mathRound p : ℚ) - p| ≤ 1 / 2 ∧
    (∀ k : ℤ, p = (k : ℚ) + 1 / 2 → mathRound p = if 0 ≤ k then k + 1 else k) ∧
    roundCurrency64 (.finite (125 / 1000)) = round64 (13 / 100) ∧
    roundCurrency64 (.finite (-125 / 1000)) = round64 (-13 / 100) := by
  refine ⟨roundCurrency64_of_product x p hp, mathRound_sub_le p, ?_, by decide!, by decide!⟩
  intro k hk
  rw [hk]
  exact mathRound_half k

theorem C13_roundCurrency64_half_away_witness :
    roundCurrency64 (.finite (-35 / 1000))
      = round64 ((mathRound (-7 / 2) : ℚ) / 100) ∧
    mathRound (-7 / 2) = if (0 : ℤ) ≤ -4 then -4 + 1 else -4 :=
  ⟨(C13_roundCurrency64_half_away (.finite (-35 / 1000)) (-7 / 2) (by decide!)).1,
   (C13_roundCurrency64_half_away (.finite (-35 / 1000)) (-7 / 2) (by decide!)).2.2.1
     (-4) (by norm_num)⟩

/-! ## Expense enrichment in `float64` -/

theorem buildExpenseResponse64_of_attendees (expense : Expense64)
    (employeeMap : String → Option Employee) (h : expense.Attendees.length ≠ 0) :
    buildExpenseResponse64 expense employeeMap = some
      { ID := expense.ID
        Date := expense.Date
        Description := expense.Description
        Amount := expense.Amount
        CostPerPerson :=
          roundCurrency64 (expense.Amount.div (Float64.ofInt expense.Attendees.length))
        Attendees := expense.Attendees.map (resolveAttendee employeeMap)
        ReceiptURL := expense.ReceiptURL } := by
  simp only [buildExpenseResponse64, if_neg h]

/-- C6: `buildExpenseResponse` is absent exactly on an empty attendee list;
otherwise the view keeps id, date, description, amount and receipt URL, has
cost per person `roundCurrency(amount / float64(count))` as `float64`
computes it, and resolves the attendees in order, with the placeholder for ids
missing from the lookup. -/
theorem C6_buildExpenseResponse64_spec (expense : Expense64)
    (employeeMap : String → Option Employee) :
    (buildExpenseResponse64 expense employeeMap = none ↔ expense.Attendees = []) ∧
    (expense.Attendees ≠ [] →
      ∃ view, buildExpenseResponse64 expense employeeMap = some view ∧
        view.ID = expense.ID ∧ view.Date = expense.Date ∧
        view.Description = expense.Description ∧ view.Amount = expense.Amount ∧
        view.ReceiptURL = expense.ReceiptURL ∧
        view.CostPerPerson
          = roundCurrency64 (expense.Amount.div (Float64.ofInt expense.Attendees.length)) ∧
        view.Attendees.length = expense.Attendees.length ∧
        ∀ (i : Nat) (h : i < expense.Attendees.length),
          view.Attendees[i]? = some
            (match employeeMap (expense.Attendees.get ⟨i, h⟩) with
              | some employee => employee
              | none => { ID := expense.Attendees.get ⟨i, h⟩, Name := "Unknown",
                          Team := "Unassigned", Department := "Unassigned" })) := by
  constructor
  · unfold buildExpenseResponse64
    by_cases h : expense.Attendees = []
    · simp [h]
    · simp [h]
  · intro h
    have hlen : ¬ expense.Attendees.length = 0 := by
      simpa [List.length_eq_zero] using h
    refine ⟨_, buildExpenseResponse64_of_attendees expense employeeMap hlen,
      rfl, rfl, rfl, rfl, rfl, rfl, by simp, ?_⟩
    intro i hi
    simp only [List.getElem?_map, List.getElem?_eq_getElem hi, Option.map_some',
      List.get_eq_getElem, resolveAttendee]

theorem C6_buildExpenseResponse64_spec_witness :
    ∃ view, buildExpenseResponse64 threeCentExpense64 (mapEmployeesByID rosterOfA)
        = some view ∧
      view.ID = "x4" ∧ view.CostPerPerson = round64 (2 / 100) ∧
      view.Attendees
        = [ { ID := "a", Name := "", Team := "Eng", Department := "R&D" },
            { ID := "b", Name := "Unknown", Team := "Unassigned",
              Department := "Unassigned" } ] := by
  obtain ⟨view, hv, h1, -, -, -, -, h6, -, -⟩ :=
    (C6_buildExpenseResponse64_spec threeCentExpense64
      (mapEmployeesByID rosterOfA)).2 (by decide)
  refine ⟨view, hv, h1, ?_, ?_⟩
  · rw [h6]; decide!
  · rw [buildExpenseResponse64_of_attendees _ _ (by decide)] at hv
    cases hv
    decide

/-- C7 as stated fails on `float64`: an amount of 0.03 with two attendees
gives cost per person 0.02, and on the exact values of these doubles
|2 x c - A| exceeds 2 x 0.005; an amount of 1e308 with one attendee gives
cost per person +Inf. -/
theorem C7_float_tolerance_exceeded :
    threeCentExpense64.Amount = .finite (1080863910568919 / 36028797018963968) ∧
    (buildExpenseResponse64 threeCentExpense64 (mapEmployeesByID rosterOfA)).map
        (fun view => view.CostPerPerson)
      = some (.finite (5764607523034235 / 288230376151711744)) ∧
    |(2 : ℚ) * (5764607523034235 / 288230376151711744)
        - 1080863910568919 / 36028797018963968| > 2 * (5 / 1000) ∧
    (buildExpenseResponse64
        { threeCentExpense64 with Amount := round64 (10 ^ 308), Attendees := ["a"] }
        (mapEmployeesByID rosterOfA)).map (fun view => view.CostPerPerson)
      = some (.inf false) := by
  refine ⟨by decide!, by decide!, ?_, by decide!⟩
  norm_num [abs_of_pos]

/-- C7, amended: for an expense with n >= 1 attendees the view exists and its
cost per person is `roundCurrency(amount / float64(n))` in `float64`; when
the conversion of n, the division, the scaling by 100 and the final division
by 100 are all exact in `float64`, cost per person c and amount A satisfy
|n x c - A| <= n x 0.005. -/
theorem C7_cost_per_person64 (expense : Expense64)
    (employeeMap : String → Option Employee) (h : 1 ≤ expense.Attendees.length) :
    ∃ view, buildExpenseResponse64 expense employeeMap = some view ∧
      view.CostPerPerson
        = roundCurrency64 (expense.Amount.div (Float64.ofInt expense.Attendees.length)) ∧
      ∀ a : ℚ, expense.Amount = .finite a →
        Float64.ofInt expense.Attendees.length
          = .finite (expense.Attendees.length : ℚ) →
        round64 (a / (expense.Attendees.length : ℚ))
          = .finite (a / (expense.Attendees.length : ℚ)) →
        round64 (a / (expense.Attendees.length : ℚ) * 100)
          = .finite (a / (expense.Attendees.length : ℚ) * 100) →
        round64 (roundCurrency (a / (expense.Attendees.length : ℚ)))
          = .finite (roundCurrency (a / (expense.Attendees.length : ℚ))) →
        view.CostPerPerson = .finite (roundCurrency (a / (expense.Attendees.length : ℚ))) ∧
        |(expense.Attendees.length : ℚ) * roundCurrency (a / (expense.Attendees.length : ℚ))
            - a| ≤ (expense.Attendees.length : ℚ) * (5 / 1000) := by
  have hlen : ¬ expense.Attendees.length = 0 := by omega
  refine ⟨_, buildExpenseResponse64_of_attendees expense employeeMap hlen, rfl, ?_⟩
  intro a ha hn h1 h2 h3
  have hn0 : (expense.Attendees.length : ℚ) ≠ 0 := by exact_mod_cast hlen
  constructor
  · simp only
    rw [ha, hn]
    have hdiv : (Float64.finite a).div (.finite (expense.Attendees.length : ℚ))
        = .finite (a / (expense.Attendees.length : ℚ)) := by
      simp only [Float64.div, hn0, if_false, h1]
    rw [hdiv]
    have hmul : (Float64.finite (a / (expense.Attendees.length : ℚ))).mul (.finite 100)
        = .finite (a / (expense.Attendees.length : ℚ) * 100) := by
      simp only [Float64.mul, h2]
    rw [roundCurrency64_of_product _ _ hmul]
    exact h3
  · have hpos : (0 : ℚ) < (expense.Attendees.length : ℚ) := by exact_mod_cast h
    have hr := roundCurrency_sub_le (a / (expense.Attendees.length : ℚ))
    set c := roundCurrency (a / (expense.Attendees.length : ℚ)) with hc
    have e : (expense.Attendees.length : ℚ) * c - a
        = (expense.Attendees.length : ℚ) * (c - a / (expense.Attendees.length : ℚ)) := by
      field_simp
      ring
    rw [e, abs_mul, abs_of_pos hpos]
    apply mul_le_mul_of_nonneg_left _ hpos.le
    calc |c - a / (expense.Attendees.length : ℚ)| ≤ 1 / 200 := hr
      _ = 5 / 1000 := by norm_num

theorem C7_cost_per_person64_witness :
    ∃ view, buildExpenseResponse64 scenarioExpense64 (mapEmployeesByID scenarioRoster)
        = some view ∧
      view.CostPerPerson = .finite 50 := by
  obtain ⟨view, hv, -, hex⟩ := C7_cost_per_person64 scenarioExpense64
    (mapEmployeesByID scenarioRoster) (by decide)
  refine ⟨view, hv, ?_⟩
  have := (hex 100 rfl (by decide!) (by decide!) (by decide!) (by decide!)).1
  rw [this]
  decide!

/-! ## Team budgets in `float64` -/

theorem attendeeStep64_headcount (employeeMap : String → Option Employee) (c : Float64)
    (st : TeamMaps64) (a : String) :
    (attendeeStep64 employeeMap c st a).teamHeadcount = st.teamHeadcount := by
  unfold attendeeStep64
  cases employeeMap a <;> rfl

theorem attendees64_foldl_headcount (employeeMap : String → Option Employee) (c : Float64)
    (as : List String) :
    ∀ st : TeamMaps64,
      (as.foldl (attendeeStep64 employeeMap c) st).teamHeadcount = st.teamHeadcount := by
  induction as with
  | nil => intro st; rfl
  | cons a rest ih =>
    intro st
    rw [List.foldl_cons, ih, attendeeStep64_headcount]

theorem expenseStep64_headcount (employeeMap : String → Option Employee)
    (year quarter : Int) (st : TeamMaps64) (expense : Expense64) :
    (expenseStep64 employeeMap year quarter st expense).teamHeadcount
      = st.teamHeadcount := by
  unfold expenseStep64
  split
  · rfl
  · split_ifs
    · rfl
    · rfl
    · rfl
    · exact attendees64_foldl_headcount _ _ _ _

theorem expenses64_foldl_headcount (employeeMap : String → Option Employee)
    (year quarter : Int) (expenses : List Expense64) :
    ∀ st : TeamMaps64,
      (expenses.foldl (expenseStep64 employeeMap year quarter) st).teamHeadcount
        = st.teamHeadcount := by
  induction expenses with
  | nil => intro st; rfl
  | cons e rest ih =>
    intro st
    rw [List.foldl_cons, ih, expenseStep64_headcount]

theorem roster64_foldl_spent (employees : List Employee) :
    ∀ st : TeamMaps64, (employees.foldl rosterStep64 st).teamSpent = st.teamSpent := by
  induction employees with
  | nil => intro st; rfl
  | cons e rest ih => intro st; rw [List.foldl_cons, ih]; rfl

theorem roster64_foldl_headcount (t : String) (employees : List Employee) :
    ∀ st : TeamMaps64,
      (employees.foldl rosterStep64 st).teamHeadcount.val t
        = st.teamHeadcount.val t + (employees.filter (fun e => e.Team = t)).length := by
  induction employees with
  | nil => intro st; simp
  | cons e rest ih =>
    intro st
    rw [List.foldl_cons, ih]
    by_cases h : e.Team = t
    · subst h
      simp [rosterStep64, GoMap.set, List.filter_cons]
      omega
    · have h' : ¬ t = e.Team := fun x => h x.symm
      simp [rosterStep64, GoMap.set, List.filter_cons, h, h']

theorem roster64_foldl_keys (employees : List Employee) :
    ∀ st : TeamMaps64, st.teamHeadcount.keys.Nodup →
      (employees.foldl rosterStep64 st).teamHeadcount.keys.Nodup ∧
      ∀ t, t ∈ (employees.foldl rosterStep64 st).teamHeadcount.keys ↔
        t ∈ st.teamHeadcount.keys ∨ ∃ e ∈ employees, e.Team = t := by
  induction employees with
  | nil => intro st h; simp [h]
  | cons e rest ih =>
    intro st h
    rw [List.foldl_cons]
    have hstep : (rosterStep64 st e).teamHeadcount.keys.Nodup :=
      goMap_nodup_set_keys _ _ _ h
    obtain ⟨h1, h2⟩ := ih (rosterStep64 st e) hstep
    refine ⟨h1, fun t => ?_⟩
    rw [h2]
    simp only [rosterStep64, goMap_mem_set_keys, List.mem_cons, exists_eq_or_imp]
    constructor
    · rintro ((h | h) | h)
      · exact Or.inl h
      · exact Or.inr (Or.inl h.symm)
      · exact Or.inr (Or.inr h)
    · rintro (h | h | h)
      · exact Or.inl (Or.inl h)
      · exact Or.inl (Or.inr h.symm)
      · exact Or.inr h

theorem attendeeStep64_keys (employeeMap : String → Option Employee) (c : Float64)
    (st : TeamMaps64) (a : String) (h : st.teamSpent.keys.Nodup) :
    (attendeeStep64 employeeMap c st a).teamSpent.keys.Nodup ∧
    ∀ t, t ∈ (attendeeStep64 employeeMap c st a).teamSpent.keys ↔
      t ∈ st.teamSpent.keys ∨ specAttendeeTeam employeeMap a = t := by
  unfold attendeeStep64 specAttendeeTeam
  cases employeeMap a with
  | none =>
    refine ⟨goMap_nodup_set_keys _ _ _ h, fun t => ?_⟩
    simp only [goMap_mem_set_keys]
    exact or_congr Iff.rfl eq_comm
  | some employee =>
    refine ⟨goMap_nodup_set_keys _ _ _ h, fun t => ?_⟩
    simp only [goMap_mem_set_keys]
    exact or_congr Iff.rfl eq_comm

theorem attendees64_foldl_keys (employeeMap : String → Option Employee) (c : Float64)
    (as : List String) :
    ∀ st : TeamMaps64, st.teamSpent.keys.Nodup →
      (as.foldl (attendeeStep64 employeeMap c) st).teamSpent.keys.Nodup ∧
      ∀ t, t ∈ (as.foldl (attendeeStep64 employeeMap c) st).teamSpent.keys ↔
        t ∈ st.teamSpent.keys ∨ ∃ a ∈ as, specAttendeeTeam employeeMap a = t := by
  induction as with
  | nil => intro st h; simp [h]
  | cons a rest ih =>
    intro st h
    rw [List.foldl_cons]
    obtain ⟨hs1, hs2⟩ := attendeeStep64_keys employeeMap c st a h
    obtain ⟨h1, h2⟩ := ih _ hs1
    refine ⟨h1, fun t => ?_⟩
    rw [h2, hs2]
    simp only [List.mem_cons, exists_eq_or_imp, or_assoc]

theorem expenseStep64_keys (employeeMap : String → Option Employee)
    (year quarter : Int) (st : TeamMaps64) (expense : Expense64)
    (h : st.teamSpent.keys.Nodup) :
    (expenseStep64 employeeMap year quarter st expense).teamSpent.keys.Nodup ∧
    ∀ t, t ∈ (expenseStep64 employeeMap year quarter st expense).teamSpent.keys ↔
      t ∈ st.teamSpent.keys ∨
        (specInWindow64 year quarter expense = true ∧
          ∃ a ∈ expense.Attendees, specAttendeeTeam employeeMap a = t) := by
  unfold expenseStep64 specInWindow64
  cases hdate : parseDate expense.Date with
  | none => simp [h]
  | some date =>
    simp only
    by_cases h1 : (date.year : Int) = year
    · by_cases h2 : (quarterFromDate date : Int) > quarter
      · have h2' : ¬ (quarterFromDate date : Int) ≤ quarter := by omega
        simp [h1, h2, h2', h]
      · have h2' : (quarterFromDate date : Int) ≤ quarter := by omega
        by_cases h3 : expense.Attendees = []
        · simp [h1, h2, h3, h]
        · have h3' : ¬ expense.Attendees.length = 0 := by
            simpa [List.length_eq_zero] using h3
          have h4 : expense.Attendees.isEmpty = false := by
            cases hA : expense.Attendees with
            | nil => exact absurd hA h3
            | cons a as => rfl
          simp only [h1, h2, h3', h2', ne_eq, not_true_eq_false, if_false,
            decide_True, Bool.true_and, h4, Bool.not_false, true_and]
          exact attendees64_foldl_keys employeeMap _ expense.Attendees st h
    · simp [h1, h]

theorem expenses64_foldl_keys (employeeMap : String → Option Employee)
    (year quarter : Int) (expenses : List Expense64) :
    ∀ st : TeamMaps64, st.teamSpent.keys.Nodup →
      (expenses.foldl (expenseStep64 employeeMap year quarter) st).teamSpent.keys.Nodup ∧
      ∀ t, t ∈ (expenses.foldl (expenseStep64 employeeMap year quarter) st).teamSpent.keys ↔
        t ∈ st.teamSpent.keys ∨
          ∃ x ∈ expenses, specInWindow64 year quarter x = true ∧
            ∃ a ∈ x.Attendees, specAttendeeTeam employeeMap a = t := by
  induction expenses with
  | nil => intro st h; simp [h]
  | cons e rest ih =>
    intro st h
    rw [List.foldl_cons]
    obtain ⟨hs1, hs2⟩ := expenseStep64_keys employeeMap year quarter st e h
    obtain ⟨h1, h2⟩ := ih _ hs1
    refine ⟨h1, fun t => ?_⟩
    rw [h2, hs2]
    simp only [List.mem_cons, exists_eq_or_imp, or_assoc]

theorem attendeeStep64_spent (employeeMap : String → Option Employee) (c : Float64)
    (st : TeamMaps64) (a : String) (t : String) :
    (attendeeStep64 employeeMap c st a).teamSpent.val t
      = if specAttendeeTeam employeeMap a = t then (st.teamSpent.val t).add c
        else st.teamSpent.val t := by
  unfold attendeeStep64 specAttendeeTeam
  cases h : employeeMap a with
  | none =>
    by_cases ht : t = "Unassigned"
    · subst ht; simp [GoMap.set]
    · have : ¬ "Unassigned" = t := fun e => ht e.symm
      simp [GoMap.set, ht, this]
  | some employee =>
    by_cases ht : t = employee.Team
    · subst ht; simp [GoMap.set]
    · have : ¬ employee.Team = t := fun e => ht e.symm
      simp [GoMap.set, ht, this]

theorem attendees64_foldl_spent (employeeMap : String → Option Employee) (c : Float64)
    (t : String) (as : List String) :
    ∀ st : TeamMaps64,
      (as.foldl (attendeeStep64 employeeMap c) st).teamSpent.val t
        = ((as.filter (fun a => specAttendeeTeam employeeMap a = t)).map
            (fun _ => c)).foldl Float64.add (st.teamSpent.val t) := by
  induction as with
  | nil => intro st; rfl
  | cons a rest ih =>
    intro st
    rw [List.foldl_cons, ih, attendeeStep64_spent]
    by_cases h : specAttendeeTeam employeeMap a = t
    · simp [List.filter_cons, h]
    · simp [List.filter_cons, h]

theorem expenseStep64_spent (employeeMap : String → Option Employee)
    (year quarter : Int) (st : TeamMaps64) (expense : Expense64) (t : String) :
    (expenseStep64 employeeMap year quarter st expense).teamSpent.val t
      = (if specInWindow64 year quarter expense then
            specExpenseShares64 employeeMap t expense else []).foldl Float64.add
          (st.teamSpent.val t) := by
  unfold expenseStep64 specInWindow64
  cases hdate : parseDate expense.Date with
  | none => simp
  | some date =>
    simp only
    by_cases h1 : (date.year : Int) = year
    · by_cases h2 : (quarterFromDate date : Int) > quarter
      · have h2' : ¬ (quarterFromDate date : Int) ≤ quarter := by omega
        simp [h1, h2, h2']
      · have h2' : (quarterFromDate date : Int) ≤ quarter := by omega
        by_cases h3 : expense.Attendees = []
        · simp [h1, h2, h3]
        · have h3' : ¬ expense.Attendees.length = 0 := by
            simpa [List.length_eq_zero] using h3
          have h4 : expense.Attendees.isEmpty = false := by
            cases hA : expense.Attendees with
            | nil => exact absurd hA h3
            | cons a as => rfl
          simp only [h1, h2, h3', h2', ne_eq, not_true_eq_false, if_false, if_true,
            decide_True, Bool.true_and, h4, Bool.not_false]
          rw [attendees64_foldl_spent]
          rfl
    · simp [h1]

theorem expenses64_foldl_spent (employeeMap : String → Option Employee)
    (year quarter : Int) (t : String) (expenses : List Expense64) :
    ∀ st : TeamMaps64,
      (expenses.foldl (expenseStep64 employeeMap year quarter) st).teamSpent.val t
        = (specTeamShares64 employeeMap expenses year quarter t).foldl Float64.add
            (st.teamSpent.val t) := by
  induction expenses with
  | nil => intro st; rfl
  | cons e rest ih =>
    intro st
    rw [List.foldl_cons, ih, expenseStep64_spent]
    unfold specTeamShares64
    by_cases h : specInWindow64 year quarter e = true
    · simp only [h, if_true, List.filter_cons, List.map_cons, List.flatten_cons,
        List.foldl_append]
    · simp only [h, if_false, List.filter_cons, List.foldl_nil, Bool.false_eq_true]

theorem teamMaps64_spent (employees : List Employee) (expenses : List Expense64)
    (employeeMap : String → Option Employee) (year quarter : Int) (t : String) :
    (teamMaps64 employees expenses employeeMap year quarter).teamSpent.val t
      = floatSum (specTeamShares64 employeeMap expenses year quarter t) := by
  unfold teamMaps64
  rw [expenses64_foldl_spent, roster64_foldl_spent]
  rfl

theorem teamMaps64_headcount (employees : List Employee) (expenses : List Expense64)
    (employeeMap : String → Option Employee) (year quarter : Int) (t : String) :
    (teamMaps64 employees expenses employeeMap year quarter).teamHeadcount.val t
      = (employees.filter (fun e => e.Team = t)).length := by
  unfold teamMaps64
  rw [expenses64_foldl_headcount, roster64_foldl_headcount]
  simp [GoMap.empty]

theorem buildTeamBudgets64_perm (employees : List Employee) (expenses : List Expense64)
    (employeeMap : String → Option Employee) (year quarter : Int) :
    (buildTeamBudgets64 employees expenses employeeMap year quarter).Perm
      ((seenTeams64 (teamMaps64 employees expenses employeeMap year quarter)).map
        (teamRow64 (teamMaps64 employees expenses employeeMap year quarter) quarter)) := by
  unfold buildTeamBudgets64
  exact List.perm_insertionSort _ _

theorem mem_buildTeamBudgets64 (employees : List Employee) (expenses : List Expense64)
    (employeeMap : String → Option Employee) (year quarter : Int) (row : BudgetTeam64) :
    row ∈ buildTeamBudgets64 employees expenses employeeMap year quarter ↔
      ∃ team ∈ seenTeams64 (teamMaps64 employees expenses employeeMap year quarter),
        teamRow64 (teamMaps64 employees expenses employeeMap year quarter) quarter team
          = row := by
  rw [(buildTeamBudgets64_perm _ _ _ _ _).mem_iff, List.mem_map]

/-- C2: the spent field of every team row is `roundCurrency` of the `float64`
sum, in the order of the scan, of `amount / float64(attendeeCount)` for each
attendee counted under the team (unknown ids under "Unassigned") over the
expenses in the cumulative window (date parses, same year, quarter at most the
selected one, attendees not empty); and an expense dated in Q1 is in the
window of exactly the queries of its own year, whatever their quarter from 1
on. -/
theorem C2_spent_is_cumulative_share64 (employees : List Employee)
    (expenses : List Expense64) (employeeMap : String → Option Employee)
    (year quarter : Int) :
    (∀ row ∈ buildTeamBudgets64 employees expenses employeeMap year quarter,
      row.Spent = roundCurrency64
        (floatSum (specTeamShares64 employeeMap expenses year quarter row.Team))) ∧
    (∀ (expense : Expense64) (date : Date), parseDate expense.Date = some date →
      quarterFromDate date = 1 → expense.Attendees ≠ [] →
      ∀ y q : Int, specInWindow64 y q expense = true ↔ (y = date.year ∧ 1 ≤ q)) := by
  constructor
  · intro row hrow
    obtain ⟨team, -, rfl⟩ := (mem_buildTeamBudgets64 _ _ _ _ _ _).1 hrow
    simp only [teamRow64, teamMaps64_spent]
  · intro expense date hdate hq hne y q
    have h4 : expense.Attendees.isEmpty = false := by
      cases hA : expense.Attendees with
      | nil => exact absurd hA hne
      | cons a as => rfl
    simp only [specInWindow64, hdate, hq, h4, Bool.not_false, Bool.and_true,
      Bool.and_eq_true, decide_eq_true_eq, Nat.cast_one]
    constructor
    · rintro ⟨h1, h2⟩; exact ⟨h1.symm, h2⟩
    · rintro ⟨h1, h2⟩; exact ⟨h1.symm, h2⟩

theorem C2_spent_is_cumulative_share64_witness :
    (({ Team := "Eng", Department := "R&D", Headcount := 2, Allocated := .finite 240,
        Spent := .finite 100, Remaining := .finite 140 } : BudgetTeam64).Spent
      = roundCurrency64 (floatSum (specTeamShares64 (mapEmployeesByID scenarioRoster)
          [scenarioExpense64] 2024 2 "Eng"))) ∧
    (specInWindow64 2024 3 scenarioExpense64 = true ↔
      ((2024 : Int) = ((2024 : Nat) : Int) ∧ (1 : Int) ≤ 3)) :=
  ⟨(C2_spent_is_cumulative_share64 scenarioRoster [scenarioExpense64]
      (mapEmployeesByID scenarioRoster) 2024 2).1 _ (by decide!),
   (C2_spent_is_cumulative_share64 scenarioRoster [scenarioExpense64]
      (mapEmployeesByID scenarioRoster) 2024 2).2 scenarioExpense64 ⟨2024, 2, 1⟩
      (by decide) (by decide) (by decide) 2024 3⟩

/-- C4 as stated fails: one employee "a" on team Eng and an expense of 0.125
for "a" give allocated 60, spent 0.13 and remaining 59.88 (the doubles nearest
to these), while 60 - 0.13 is 59.87, both in `float64` and on the exact
values. -/
theorem C4_remaining_differs_at_tie64 :
    buildTeamBudgets64 rosterOfA [tieExpense64] (mapEmployeesByID rosterOfA) 2024 1
      = [ { Team := "Eng", Department := "R&D", Headcount := 1, Allocated := .finite 60,
            Spent := round64 (13 / 100), Remaining := round64 (5988 / 100) } ] ∧
    ¬ (∀ row ∈ buildTeamBudgets64 rosterOfA [tieExpense64] (mapEmployeesByID rosterOfA)
          2024 1, row.Remaining = row.Allocated.sub row.Spent) ∧
    (Float64.finite 60).sub (round64 (13 / 100)) = round64 (5987 / 100) ∧
    round64 (5988 / 100) ≠ round64 (5987 / 100) := by
  have h : buildTeamBudgets64 rosterOfA [tieExpense64] (mapEmployeesByID rosterOfA) 2024 1
      = [ { Team := "Eng", Department := "R&D", Headcount := 1, Allocated := .finite 60,
            Spent := round64 (13 / 100), Remaining := round64 (5988 / 100) } ] := by
    decide!
  have hsub : (Float64.finite 60).sub (round64 (13 / 100)) = round64 (5987 / 100) := by
    decide!
  have hne : round64 (5988 / 100) ≠ round64 (5987 / 100) := by decide!
  refine ⟨h, ?_, hsub, hne⟩
  rw [h]
  intro hall
  have := hall _ (List.mem_singleton_self _)
  simp only at this
  rw [hsub] at this
  exact hne this

/-- C4, amended: every team row has allocated = roundCurrency(a),
spent = roundCurrency(s) and remaining = roundCurrency(a - s), where
a = 60 x float64(headcount) x float64(quarter) and s is the unrounded
`float64` spend of the row's team; the three fields are rounded independently
from the unrounded values. -/
theorem C4_fields_rounded_independently64 (employees : List Employee)
    (expenses : List Expense64) (employeeMap : String → Option Employee)
    (year quarter : Int) (row : BudgetTeam64)
    (hrow : row ∈ buildTeamBudgets64 employees expenses employeeMap year quarter) :
    row.Allocated = roundCurrency64 (allocated64 row.Headcount quarter) ∧
    row.Spent = roundCurrency64
      (floatSum (specTeamShares64 employeeMap expenses year quarter row.Team)) ∧
    row.Remaining = roundCurrency64
      ((allocated64 row.Headcount quarter).sub
        (floatSum (specTeamShares64 employeeMap expenses year quarter row.Team))) := by
  obtain ⟨team, -, rfl⟩ := (mem_buildTeamBudgets64 _ _ _ _ _ _).1 hrow
  simp only [teamRow64, teamMaps64_spent]
  exact ⟨trivial, trivial, trivial⟩

theorem C4_fields_rounded_independently64_witness :
    (round64 (5988 / 100) : Float64) = roundCurrency64
      ((allocated64 1 1).sub
        (floatSum (specTeamShares64 (mapEmployeesByID rosterOfA) [tieExpense64] 2024 1
          "Eng"))) :=
  (C4_fields_rounded_independently64 rosterOfA [tieExpense64] (mapEmployeesByID rosterOfA)
    2024 1
    { Team := "Eng", Department := "R&D", Headcount := 1, Allocated := .finite 60,
      Spent := round64 (13 / 100), Remaining := round64 (5988 / 100) } (by decide!)).2.2

theorem seenTeams64_spec (employees : List Employee) (expenses : List Expense64)
    (employeeMap : String → Option Employee) (year quarter : Int) :
    (seenTeams64 (teamMaps64 employees expenses employeeMap year quarter)).Nodup ∧
    ∀ t, t ∈ seenTeams64 (teamMaps64 employees expenses employeeMap year quarter) ↔
      (∃ e ∈ employees, e.Team = t) ∨
        ∃ x ∈ expenses, specInWindow64 year quarter x = true ∧
          ∃ a ∈ x.Attendees, specAttendeeTeam employeeMap a = t := by
  have hinit : (List.foldl rosterStep64
      { teamHeadcount := GoMap.empty 0, teamDepartments := fun _ => "",
        teamSpent := GoMap.empty (.finite 0) } employees).teamSpent = GoMap.empty (.finite 0) :=
    roster64_foldl_spent employees _
  obtain ⟨hh1, hh2⟩ := roster64_foldl_keys employees
    { teamHeadcount := GoMap.empty 0, teamDepartments := fun _ => "",
      teamSpent := GoMap.empty (.finite 0) } (by simp [GoMap.empty])
  obtain ⟨hs1, hs2⟩ := expenses64_foldl_keys employeeMap year quarter expenses
    (List.foldl rosterStep64
      { teamHeadcount := GoMap.empty 0, teamDepartments := fun _ => "",
        teamSpent := GoMap.empty (.finite 0) } employees) (by rw [hinit]; simp [GoMap.empty])
  have hhead : (teamMaps64 employees expenses employeeMap year quarter).teamHeadcount
      = (List.foldl rosterStep64
          { teamHeadcount := GoMap.empty 0, teamDepartments := fun _ => "",
            teamSpent := GoMap.empty (.finite 0) } employees).teamHeadcount :=
    expenses64_foldl_headcount _ _ _ _ _
  unfold seenTeams64
  rw [hhead]
  unfold teamMaps64
  constructor
  · rw [List.nodup_append]
    refine ⟨hh1, hs1.filter _, ?_⟩
    intro a ha hb
    have := (List.mem_filter.1 hb).2
    simp only [decide_eq_true_eq] at this
    exact this ha
  · intro t
    rw [List.mem_append, List.mem_filter, hs2, hinit]
    simp only [decide_eq_true_eq]
    have hh := hh2 t
    have hempty : t ∉ (GoMap.empty (Float64.finite 0)).keys := by simp [GoMap.empty]
    constructor
    · rintro (h | ⟨h | h, -⟩)
      · exact Or.inl ((hh.1 h).resolve_left (by simp [GoMap.empty]))
      · exact absurd h hempty
      · exact Or.inr h
    · rintro (h | h)
      · exact Or.inl (hh.2 (Or.inr h))
      · by_cases hm : t ∈ (List.foldl rosterStep64
            { teamHeadcount := GoMap.empty 0, teamDepartments := fun _ => "",
              teamSpent := GoMap.empty (.finite 0) } employees).teamHeadcount.keys
        · exact Or.inl hm
        · exact Or.inr ⟨Or.inr h, hm⟩

theorem buildTeamBudgets64_teams_perm (employees : List Employee)
    (expenses : List Expense64) (employeeMap : String → Option Employee)
    (year quarter : Int) :
    ((buildTeamBudgets64 employees expenses employeeMap year quarter).map
        (fun r => r.Team)).Perm
      (seenTeams64 (teamMaps64 employees expenses employeeMap year quarter)) := by
  have h := (buildTeamBudgets64_perm employees expenses employeeMap year quarter).map
    (fun r => r.Team)
  rw [List.map_map] at h
  have hid : ((fun r : BudgetTeam64 => r.Team) ∘
      teamRow64 (teamMaps64 employees expenses employeeMap year quarter) quarter) = id := by
    funext t
    rfl
  rw [hid, List.map_id] at h
  exact h

theorem specTeamShares64_length (employeeMap : String → Option Employee)
    (expenses : List Expense64) (year quarter : Int) (t : String) :
    (specTeamShares64 employeeMap expenses year quarter t).length
      = ((expenses.filter (specInWindow64 year quarter)).map (fun e =>
          ((e.Attendees.filter (fun a => specAttendeeTeam employeeMap a = t)).map
            (fun _ => 1)).sum)).sum := by
  unfold specTeamShares64
  rw [List.length_flatten, List.map_map]
  apply congrArg
  apply List.map_congr_left
  intro e _
  simp [specExpenseShares64]

theorem seenTeams64_slots_total (employees : List Employee) (expenses : List Expense64)
    (employeeMap : String → Option Employee) (year quarter : Int) :
    ((seenTeams64 (teamMaps64 employees expenses employeeMap year quarter)).map
        (fun t => (specTeamShares64 employeeMap expenses year quarter t).length)).sum
      = ((expenses.filter (specInWindow64 year quarter)).map
          (fun e => e.Attendees.length)).sum := by
  obtain ⟨hnodup, hmem⟩ := seenTeams64_spec employees expenses employeeMap year quarter
  have hfun : (fun t => (specTeamShares64 employeeMap expenses year quarter t).length)
      = fun t => ((expenses.filter (specInWindow64 year quarter)).map (fun e =>
          ((e.Attendees.filter (fun a => specAttendeeTeam employeeMap a = t)).map
            (fun _ => 1)).sum)).sum := by
    funext t
    exact specTeamShares64_length _ _ _ _ _
  rw [hfun, sum_swap]
  apply congrArg
  apply List.map_congr_left
  intro e he
  obtain ⟨hin, hW⟩ := List.mem_filter.1 he
  have hkeys : ∀ a ∈ e.Attendees, specAttendeeTeam employeeMap a
      ∈ seenTeams64 (teamMaps64 employees expenses employeeMap year quarter) :=
    fun a ha => (hmem _).2 (Or.inr ⟨e, hin, hW, a, ha, rfl⟩)
  rw [sum_by_key _ hnodup (specAttendeeTeam employeeMap) (fun _ => 1) e.Attendees hkeys]
  simp

theorem seenTeams64_headcount_total (employees : List Employee)
    (expenses : List Expense64) (employeeMap : String → Option Employee)
    (year quarter : Int) :
    ((seenTeams64 (teamMaps64 employees expenses employeeMap year quarter)).map
        (fun t => (employees.filter (fun e => e.Team = t)).length)).sum
      = employees.length := by
  obtain ⟨hnodup, hmem⟩ := seenTeams64_spec employees expenses employeeMap year quarter
  have h := sum_by_key _ hnodup (fun e : Employee => e.Team) (fun _ => (1 : Nat)) employees
    (fun e he => (hmem _).2 (Or.inl ⟨e, he, rfl⟩))
  simpa using h

/-- C19 as stated fails on `float64`: an expense of 0.03 shared by two
attendees on two teams gives two rows with spent 0.02 each, and on the exact
values of these doubles the spent total differs from the amount by more than
2 x 0.005. -/
theorem C19_float_spend_total_off :
    (buildTeamBudgets64 rosterTwoTeams [threeCentExpense64]
        (mapEmployeesByID rosterTwoTeams) 2024 1).map (fun r => (r.Team, r.Spent))
      = [ ("Eng", .finite (5764607523034235 / 288230376151711744)),
          ("Ops", .finite (5764607523034235 / 288230376151711744)) ] ∧
    threeCentExpense64.Amount = .finite (1080863910568919 / 36028797018963968) ∧
    |((5764607523034235 / 288230376151711744 : ℚ) + 5764607523034235 / 288230376151711744)
        - 1080863910568919 / 36028797018963968| > 5 / 1000 * 2 := by
  refine ⟨by decide!, by decide!, ?_⟩
  norm_num [abs_of_pos]

/-- C19, amended: no attendee share is lost or counted twice: the headcount
fields of the rows add up to the number of roster employees, every row's spent
is `roundCurrency` of the `float64` sum of the shares counted under its team,
and the numbers of shares counted under the rows add up to the number of
attendee slots of the in-window expenses. -/
theorem C19_shares_and_headcount_conserved64 (employees : List Employee)
    (expenses : List Expense64) (employeeMap : String → Option Employee)
    (year quarter : Int) :
    ((buildTeamBudgets64 employees expenses employeeMap year quarter).map
        (fun r => r.Headcount)).sum = employees.length ∧
    (∀ row ∈ buildTeamBudgets64 employees expenses employeeMap year quarter,
      row.Spent = roundCurrency64
        (floatSum (specTeamShares64 employeeMap expenses year quarter row.Team))) ∧
    ((buildTeamBudgets64 employees expenses employeeMap year quarter).map
        (fun r => (specTeamShares64 employeeMap expenses year quarter r.Team).length)).sum
      = ((expenses.filter (specInWindow64 year quarter)).map
          (fun e => e.Attendees.length)).sum := by
  have hperm := buildTeamBudgets64_perm employees expenses employeeMap year quarter
  have hteams := buildTeamBudgets64_teams_perm employees expenses employeeMap year quarter
  refine ⟨?_, ?_, ?_⟩
  · have hsum := (hperm.map (fun r => r.Headcount)).sum_eq
    rw [hsum, List.map_map,
      ← seenTeams64_headcount_total employees expenses employeeMap year quarter]
    apply congrArg
    apply List.map_congr_left
    intro t _
    simp only [Function.comp_apply, teamRow64, teamMaps64_headcount]
  · intro row hrow
    obtain ⟨team, -, rfl⟩ := (mem_buildTeamBudgets64 _ _ _ _ _ _).1 hrow
    simp only [teamRow64, teamMaps64_spent]
  · have hsum := (hteams.map
      (fun t => (specTeamShares64 employeeMap expenses year quarter t).length)).sum_eq
    rw [List.map_map] at hsum
    rw [← seenTeams64_slots_total employees expenses employeeMap year quarter, ← hsum]
    rfl

theorem C19_shares_and_headcount_conserved64_witness :
    (({ Team := "Eng", Department := "R&D", Headcount := 1, Allocated := .finite 60,
        Spent := round64 (2 / 100), Remaining := round64 (5999 / 100) }
        : BudgetTeam64).Spent
      = roundCurrency64 (floatSum (specTeamShares64 (mapEmployeesByID rosterTwoTeams)
          [threeCentExpense64] 2024 1 "Eng"))) :=
  (C19_shares_and_headcount_conserved64 rosterTwoTeams [threeCentExpense64]
    (mapEmployeesByID rosterTwoTeams) 2024 1).2.1 _ (by decide!)

/-! ## Department budgets in `float64` -/

theorem specDepartmentValues64_concat (field : BudgetTeam64 → Float64)
    (l : List BudgetTeam64) (t : BudgetTeam64) (d : String) :
    floatSum (specDepartmentValues64 field (l ++ [t]) d)
      = if specDepartment64 t = d then
          (floatSum (specDepartmentValues64 field l d)).add (field t)
        else floatSum (specDepartmentValues64 field l d) := by
  unfold specDepartmentValues64 floatSum
  by_cases h : specDepartment64 t = d
  · simp [List.filter_append, List.filter_cons, h, List.foldl_append]
  · simp [List.filter_append, List.filter_cons, h]

theorem specDepartmentValues64_of_absent (field : BudgetTeam64 → Float64)
    (l : List BudgetTeam64) (d : String) (h : ¬ ∃ t ∈ l, specDepartment64 t = d) :
    floatSum (specDepartmentValues64 field l d) = .finite 0 := by
  unfold specDepartmentValues64
  have : l.filter (fun t => specDepartment64 t = d) = [] := by
    rw [List.filter_eq_nil_iff]
    intro t ht hd
    exact h ⟨t, ht, by simpa using hd⟩
  rw [this]
  rfl

theorem departmentTotals64_invariant (teamBudgets : List BudgetTeam64) :
    (teamBudgets.foldl departmentStep64 (GoMap.empty none)).keys.Nodup ∧
    (∀ d, d ∈ (teamBudgets.foldl departmentStep64 (GoMap.empty none)).keys ↔
      ∃ t ∈ teamBudgets, specDepartment64 t = d) ∧
    (∀ d, (teamBudgets.foldl departmentStep64 (GoMap.empty none)).val d
      = if d ∈ (teamBudgets.foldl departmentStep64 (GoMap.empty none)).keys then
          some { Department := d
                 Allocated := floatSum
                   (specDepartmentValues64 (fun t => t.Allocated) teamBudgets d)
                 Spent := floatSum (specDepartmentValues64 (fun t => t.Spent) teamBudgets d)
                 Remaining := floatSum
                   (specDepartmentValues64 (fun t => t.Remaining) teamBudgets d) }
        else none) := by
  induction teamBudgets using List.reverseRecOn with
  | nil => simp [GoMap.empty]
  | append_singleton l t ih =>
    obtain ⟨ih1, ih2, ih3⟩ := ih
    rw [List.foldl_append, List.foldl_cons, List.foldl_nil]
    set m := l.foldl departmentStep64 (GoMap.empty none) with hm
    have hdept : (if t.Department = "" then "Unassigned" else t.Department)
        = specDepartment64 t := rfl
    have hcur : (match m.val (specDepartment64 t) with
        | some summary => summary
        | none => { Department := specDepartment64 t, Allocated := .finite 0,
                    Spent := .finite 0, Remaining := .finite 0 })
        = { Department := specDepartment64 t
            Allocated := floatSum
              (specDepartmentValues64 (fun t => t.Allocated) l (specDepartment64 t))
            Spent := floatSum
              (specDepartmentValues64 (fun t => t.Spent) l (specDepartment64 t))
            Remaining := floatSum
              (specDepartmentValues64 (fun t => t.Remaining) l (specDepartment64 t)) } := by
      rw [ih3]
      by_cases hk : specDepartment64 t ∈ m.keys
      · simp [hk]
      · have habs : ¬ ∃ x ∈ l, specDepartment64 x = specDepartment64 t :=
          fun hx => hk ((ih2 _).2 hx)
        simp [hk, specDepartmentValues64_of_absent _ _ _ habs]
    have hkeys : ∀ d, d ∈ (departmentStep64 m t).keys ↔
        (d ∈ m.keys ∨ d = specDepartment64 t) := by
      intro d
      simp only [departmentStep64, hdept]
      exact goMap_mem_set_keys _ _ _ _
    refine ⟨?_, ?_, ?_⟩
    · simp only [departmentStep64, hdept]
      exact goMap_nodup_set_keys _ _ _ ih1
    · intro d
      rw [hkeys, ih2]
      simp only [List.mem_append, List.mem_singleton]
      constructor
      · rintro (⟨x, hx, hd⟩ | hd)
        · exact ⟨x, Or.inl hx, hd⟩
        · exact ⟨t, Or.inr rfl, hd.symm⟩
      · rintro ⟨x, hx | hx, hd⟩
        · exact Or.inl ⟨x, hx, hd⟩
        · exact Or.inr (hx ▸ hd.symm)
    · intro d
      rw [if_congr (hkeys d) rfl rfl]
      have hval : (departmentStep64 m t).val d
          = if d = specDepartment64 t then
              some { Department := specDepartment64 t
                     Allocated := (floatSum (specDepartmentValues64 (fun t => t.Allocated) l
                        (specDepartment64 t))).add t.Allocated
                     Spent := (floatSum (specDepartmentValues64 (fun t => t.Spent) l
                        (specDepartment64 t))).add t.Spent
                     Remaining := (floatSum (specDepartmentValues64 (fun t => t.Remaining) l
                        (specDepartment64 t))).add t.Remaining }
            else m.val d := by
        simp only [departmentStep64, GoMap.set, hdept, hcur]
      rw [hval]
      by_cases hd : d = specDepartment64 t
      · subst hd
        simp [specDepartmentValues64_concat]
      · have hd' : ¬ specDepartment64 t = d := fun e => hd e.symm
        simp only [hd, if_false, or_false, specDepartmentValues64_concat, hd']
        exact ih3 d

theorem buildDepartmentBudgets64_perm (teamBudgets : List BudgetTeam64) :
    (buildDepartmentBudgets64 teamBudgets).Perm
      ((teamBudgets.foldl departmentStep64 (GoMap.empty none)).keys.map (fun d =>
        ({ Department := d
           Allocated := roundCurrency64
             (floatSum (specDepartmentValues64 (fun t => t.Allocated) teamBudgets d))
           Spent := roundCurrency64
             (floatSum (specDepartmentValues64 (fun t => t.Spent) teamBudgets d))
           Remaining := roundCurrency64
             (floatSum (specDepartmentValues64 (fun t => t.Remaining) teamBudgets d)) }
          : BudgetDepartment64))) := by
  obtain ⟨-, -, h3⟩ := departmentTotals64_invariant teamBudgets
  unfold buildDepartmentBudgets64
  simp only
  refine (List.perm_insertionSort _ _).trans ?_
  rw [filterMap_eq_map_of_some _ _ (fun d =>
    ({ Department := d
       Allocated := floatSum (specDepartmentValues64 (fun t => t.Allocated) teamBudgets d)
       Spent := floatSum (specDepartmentValues64 (fun t => t.Spent) teamBudgets d)
       Remaining := floatSum (specDepartmentValues64 (fun t => t.Remaining) teamBudgets d) }
      : BudgetDepartment64))
    (fun d hd => by rw [h3 d, if_pos hd]), List.map_map]
  exact List.Perm.refl _

theorem buildDepartmentBudgets64_sorted (teamBudgets : List BudgetTeam64) :
    ((buildDepartmentBudgets64 teamBudgets).map (fun r => r.Department)).Sorted (· ≤ ·) := by
  haveI : IsTotal BudgetDepartment64 (fun a b => ¬ b.Department < a.Department) :=
    ⟨fun a b => by simp only [not_lt]; exact le_total _ _⟩
  haveI : IsTrans BudgetDepartment64 (fun a b => ¬ b.Department < a.Department) :=
    ⟨fun a b c => by simp only [not_lt]; exact le_trans⟩
  have h := List.sorted_insertionSort
    (fun a b : BudgetDepartment64 => ¬ b.Department < a.Department)
    (((teamBudgets.foldl departmentStep64 (GoMap.empty none)).keys.filterMap
      (teamBudgets.foldl departmentStep64 (GoMap.empty none)).val).map roundSummary64)
  unfold buildDepartmentBudgets64
  simp only
  rw [List.Sorted, List.pairwise_map]
  exact h.imp (fun hab => not_lt.1 hab)

/-- C5 as stated fails on `float64`: two team rows of one department with
spent 15908079355528.82 and 17402363098525.38, both fixed by `roundCurrency`,
get the department spent 33310442454054.21, which is neither the `float64`
sum of the two fields, nor the sum of their exact values, nor the double
nearest to the decimal sum 33310442454054.20. -/
theorem C5_department_total_a_cent_off :
    (∀ t ∈ largeTeamRows64, roundCurrency64 t.Spent = t.Spent) ∧
    (buildDepartmentBudgets64 largeTeamRows64).map (fun r => (r.Department, r.Spent))
      = [("R&D", round64 (3331044245405421 / 100))] ∧
    round64 (3331044245405421 / 100) ≠ round64 (3331044245405420 / 100) ∧
    round64 (3331044245405421 / 100)
      ≠ (round64 (1590807935552882 / 100)).add (round64 (1740236309852538 / 100)) ∧
    (round64 (3331044245405421 / 100)).toRat?
      ≠ ((round64 (1590807935552882 / 100)).toRat?.bind (fun a =>
          (round64 (1740236309852538 / 100)).toRat?.map (fun b => a + b))) := by
  refine ⟨by decide!, by decide!, by decide!, by decide!, by decide!⟩

/-- C5, amended: `buildDepartmentBudgets` returns its rows in strictly
ascending department order (so one row per department), the departments are
exactly those of the team rows (an empty one counted as "Unassigned"), and
each row's allocated, spent and remaining are `roundCurrency` of the `float64`
sum, in row order, of that field over the team rows of its department. -/
theorem C5_department_rollup64 (teamBudgets : List BudgetTeam64) :
    ((buildDepartmentBudgets64 teamBudgets).map (fun r => r.Department)).Sorted (· < ·) ∧
    (∀ d, d ∈ (buildDepartmentBudgets64 teamBudgets).map (fun r => r.Department) ↔
      ∃ t ∈ teamBudgets, specDepartment64 t = d) ∧
    (∀ row ∈ buildDepartmentBudgets64 teamBudgets,
      row.Allocated = roundCurrency64 (floatSum
        (specDepartmentValues64 (fun t => t.Allocated) teamBudgets row.Department)) ∧
      row.Spent = roundCurrency64 (floatSum
        (specDepartmentValues64 (fun t => t.Spent) teamBudgets row.Department)) ∧
      row.Remaining = roundCurrency64 (floatSum
        (specDepartmentValues64 (fun t => t.Remaining) teamBudgets row.Department))) := by
  obtain ⟨h1, h2, -⟩ := departmentTotals64_invariant teamBudgets
  have hperm := buildDepartmentBudgets64_perm teamBudgets
  have hkeys : ((buildDepartmentBudgets64 teamBudgets).map (fun r => r.Department)).Perm
      (teamBudgets.foldl departmentStep64 (GoMap.empty none)).keys := by
    have := hperm.map (fun r => r.Department)
    simpa [List.map_map, Function.comp_def] using this
  refine ⟨?_, ?_, ?_⟩
  · exact (buildDepartmentBudgets64_sorted teamBudgets).lt_of_le (hkeys.nodup_iff.2 h1)
  · intro d
    rw [hkeys.mem_iff, h2]
  · intro row hrow
    obtain ⟨d, -, rfl⟩ := List.mem_map.1 (hperm.mem_iff.1 hrow)
    exact ⟨rfl, rfl, rfl⟩

theorem C5_department_rollup64_witness :
    (round64 (10013 / 100) : Float64) = roundCurrency64 (floatSum
      (specDepartmentValues64 (fun t => t.Spent) sampleTeamRows64 "R&D")) :=
  ((C5_department_rollup64 sampleTeamRows64).2.2
    { Department := "R&D", Allocated := .finite 180, Spent := round64 (10013 / 100),
      Remaining := round64 (7988 / 100) } (by decide!)).2.1

end SocialBudget
